import Mathlib

/-!
Verification development for the menu-item resolution engine in
`backend_server/models/resturant_calories.py`.

The Python module is embedded shallowly:

* Python strings become Lean `String` (operations such as `lower()`, `strip()`,
  substring tests and the few regular expressions used by the module are
  reimplemented character by character, faithful to CPython semantics on the
  ASCII inputs the module works with);
* Python `None` / optional values become `Option`;
* Python truthiness tests on strings are modelled by `truthyS`;
* the external Nutritionix HTTP endpoints become an explicit `Catalog` record
  of oracles, each returning `Except Unit (status × body)`, where
  `Except.error` models a raised `requests` exception and a non-200 status
  models an unsuccessful response.  Calls the Python code wraps in
  `try/except` absorb the `error` case exactly where the source does;
* the `ThreadPoolExecutor` batch is modelled as a left-to-right fold threading
  the shared result cache (one admissible schedule of the concurrent
  execution); wall-clock budget checks become an oracle `overBudget` consulted
  exactly where the source consults the clock; `duration_ms` is not modelled.
-/

/-! ### Character and string primitives -/

/-- Python `\s` on ASCII: space, tab, newline, carriage return, vertical tab,
form feed. -/
def pySpace (c : Char) : Bool :=
  c == ' ' || c == '\t' || c == '\n' || c == '\r' ||
  c == Char.ofNat 11 || c == Char.ofNat 12

/-- Python `\w` on ASCII: letters, digits, underscore. -/
def isWordChar (c : Char) : Bool :=
  c.isAlpha || c.isDigit || c == '_'

/-- The character class `[a-z0-9]` used by `_norm_raw` and the token regex. -/
def lowAlnum (c : Char) : Bool :=
  c.isLower || c.isDigit

/-- Python `str.lower()` (ASCII-faithful). -/
def lowerStr (s : String) : String :=
  String.mk (s.toList.map Char.toLower)

/-- Python `str.upper()` (ASCII-faithful). -/
def upperStr (s : String) : String :=
  String.mk (s.toList.map Char.toUpper)

/-- Drop leading whitespace. -/
def dropSp (l : List Char) : List Char :=
  l.dropWhile pySpace

/-- Python `str.strip()` on a character list: drop trailing whitespace (via
reverse), then leading whitespace. -/
def stripChars (l : List Char) : List Char :=
  dropSp ((dropSp l.reverse).reverse)

/-- Python `str.strip()`. -/
def pyStrip (s : String) : String :=
  String.mk (stripChars s.toList)

/-- Python truthiness of an optional string: `None` and `""` are falsy. -/
def truthyS (s : Option String) : Bool :=
  match s with
  | none => false
  | some t => t != ""

/-- Python `x or d` for an optional string `x` and string default `d`. -/
def pyOrS (x : Option String) (d : String) : String :=
  if truthyS x then x.getD "" else d

/-- Python `x or y` for two optional strings. -/
def orT (x y : Option String) : Option String :=
  if truthyS x then x else y

/-- Python `x or d` for two plain strings. -/
def pyOrStr (x d : String) : String :=
  if x != "" then x else d

/-- Python `x or d` for an optional integer (`0` is falsy). -/
def pyOrI (x : Option Int) (d : Int) : Int :=
  match x with
  | none => d
  | some v => if v == 0 then d else v

/-- Python `f"{x}"` for an optional string (`None` prints as `"None"`). -/
def pyStr (x : Option String) : String :=
  match x with
  | none => "None"
  | some s => s

/-- Decides whether `p` is a prefix of `l` (Python `str.startswith` on lists). -/
def prefixB : List Char → List Char → Bool
  | [], _ => true
  | _ :: _, [] => false
  | a :: as, b :: bs => a == b && prefixB as bs

/-- Decides whether `p` occurs as a contiguous substring of `l`
(Python `p in l`). -/
def subB (p : List Char) : List Char → Bool
  | [] => p.isEmpty
  | c :: tl => prefixB p (c :: tl) || subB p tl

/-- Python `needle in hay` on strings. -/
def hasSub (needle hay : String) : Bool :=
  subB needle.toList hay.toList

/-- Propositional form of substring occurrence. -/
def subList (p l : List Char) : Prop :=
  ∃ s t, l = s ++ p ++ t

/-! ### `_norm_raw`, `_norm_brand`, `_is_generic_brand` -/

/-- `_norm_raw`: lowercase and keep only `[a-z0-9]`; `None` maps to `""`. -/
def norm_raw (s : Option String) : String :=
  String.mk (((s.getD "").toList.map Char.toLower).filter lowAlnum)

/-- The alias table inside `_norm_brand`. -/
def brandAliases : List (String × String) :=
  [("mcdonald", "mcdonalds"), ("mcdonalds", "mcdonalds"),
   ("chickfila", "chickfila"), ("chickfilamenu", "chickfila"),
   ("chickfilachicken", "chickfila"),
   ("wendys", "wendys"), ("wendy", "wendys"),
   ("dominos", "dominos"), ("domino", "dominos"),
   ("papajohns", "papajohns"), ("papajohn", "papajohns"),
   ("burgerking", "burgerking"), ("bk", "burgerking"),
   ("kfc", "kfc"), ("kentuckyfriedchicken", "kfc"),
   ("arbys", "arbys"), ("arby", "arbys"),
   ("tacobell", "tacobell"), ("pandaexpress", "pandaexpress"),
   ("popeyes", "popeyes"), ("popeyeslouisianakitchen", "popeyes"),
   ("subway", "subway"), ("jackinthebox", "jackinthebox"),
   ("jackbox", "jackinthebox"),
   ("chipotle", "chipotle"), ("chipotlemexicangrill", "chipotle")]

/-- `_norm_brand`: `_norm_raw` then alias lookup with identity default. -/
def norm_brand (s : Option String) : String :=
  let n := norm_raw s
  (brandAliases.lookup n).getD n

/-- `_is_generic_brand`. -/
def is_generic_brand (s : Option String) : Bool :=
  ["", "home", "casualdining", "upscalerestaurant", "restaurant"].contains
    (norm_raw s)

/-! ### Regular-expression scanners

`re.search` is modelled by `scanPos`, which tries a pattern-specific `step`
at every position of the text (left to right), keeping track of the previous
character for `\b` word-boundary tests. -/

/-- `\b` before a word character: start of text or preceding non-word char. -/
def boundaryBefore (prev : Option Char) : Bool :=
  match prev with
  | none => true
  | some p => !isWordChar p

/-- `\b` after a word character: end of text or following non-word char. -/
def boundaryAfter (l : List Char) : Bool :=
  match l with
  | [] => true
  | c :: _ => !isWordChar c

/-- Try `step` at each position of the text, leftmost match first. -/
def scanPos (step : Option Char → List Char → Option String) :
    Option Char → List Char → Option String
  | _, [] => none
  | prev, c :: rest =>
    match step prev (c :: rest) with
    | some r => some r
    | none => scanPos step (some c) rest

/-- Alternation `(?:u₁|u₂|…)\b` over literal units at the head of `l`. -/
def matchAlts (alts : List String) (l : List Char) : Bool :=
  alts.any fun a => prefixB a.toList l && boundaryAfter (l.drop a.toList.length)

/-- After taking exactly `k` digits at the head of `l`: `\s*` then a unit
alternation with a trailing `\b`. -/
def countAfterDigits (alts : List String) (l : List Char) (k : Nat) :
    Option String :=
  let ds := l.take k
  if ds.length == k && ds.all Char.isDigit then
    if matchAlts alts ((l.drop k).dropWhile pySpace) then
      some (String.mk ds)
    else none
  else none

/-- One position of `\b(\d{1,3})\s*(?:alts)\b` (greedy digit count with
backtracking 3, 2, 1). -/
def countStepA (alts : List String) (prev : Option Char) (l : List Char) :
    Option String :=
  if boundaryBefore prev then
    (countAfterDigits alts l 3).orElse fun _ =>
      (countAfterDigits alts l 2).orElse fun _ =>
        countAfterDigits alts l 1
  else none

/-- Units of the count regex `\b(\d{1,3})\s*(?:pc|piece|pieces|ct)\b`. -/
def countUnits : List String := ["pc", "piece", "pieces", "ct"]

/-- Units of the visible-piece regex `\b(\d{1,3})\s*(?:pc|pcs|pieces)\b`. -/
def countUnitsVis : List String := ["pc", "pcs", "pieces"]

/-- `re.search(r"\b(\d{1,3})\s*(?:pc|piece|pieces|ct)\b", text)`, capture 1. -/
def countScan (text : List Char) : Option String :=
  scanPos (countStepA countUnits) none text

/-- `re.search(r"\b(\d{1,3})\s*(?:pc|pcs|pieces)\b", text)`, capture 1. -/
def countScanVis (text : List Char) : Option String :=
  scanPos (countStepA countUnitsVis) none text

/-- After `(` and exactly `k` digits: `\s*` then the literal `pc)`. -/
def parenAfterDigits (l : List Char) (k : Nat) : Option String :=
  let ds := l.take k
  if ds.length == k && ds.all Char.isDigit then
    if prefixB "pc)".toList ((l.drop k).dropWhile pySpace) then
      some (String.mk ds)
    else none
  else none

/-- One position of `\((\d{1,3})\s*pc\)`. -/
def parenStep (_ : Option Char) (l : List Char) : Option String :=
  match l with
  | '(' :: rest =>
    (parenAfterDigits rest 3).orElse fun _ =>
      (parenAfterDigits rest 2).orElse fun _ =>
        parenAfterDigits rest 1
  | _ => none

/-- `re.search(r"\((\d{1,3})\s*pc\)", text)`, capture 1. -/
def parenScan (text : List Char) : Option String :=
  scanPos parenStep none text

/-- One position of `\b(kids|small|medium|large)\b`; returns the raw match. -/
def sizeStep (prev : Option Char) (l : List Char) : Option String :=
  if boundaryBefore prev then
    ["kids", "small", "medium", "large"].findSome? fun w =>
      if prefixB w.toList l && boundaryAfter (l.drop w.toList.length) then
        some w
      else none
  else none

/-- `re.search(r"\b(kids|small|medium|large)\b", text)`, capture 1 (untitled). -/
def sizeScan (text : List Char) : Option String :=
  scanPos sizeStep none text

/-- Python `str.title()` on a single captured word. -/
def pyTitle (s : String) : String :=
  match s.toList with
  | [] => ""
  | c :: rest => String.mk (Char.toUpper c :: rest.map Char.toLower)

/-- After exactly `k` digits: `\s*fl\s*oz\b`. -/
def ouncesAfterDigits (l : List Char) (k : Nat) : Option String :=
  let ds := l.take k
  if ds.length == k && ds.all Char.isDigit then
    let r1 := (l.drop k).dropWhile pySpace
    if prefixB "fl".toList r1 then
      let r2 := (r1.drop 2).dropWhile pySpace
      if prefixB "oz".toList r2 && boundaryAfter (r2.drop 2) then
        some (String.mk ds)
      else none
    else none
  else none

/-- One position of `\b(\d{1,3})\s*fl\s*oz\b`. -/
def ouncesStep (prev : Option Char) (l : List Char) : Option String :=
  if boundaryBefore prev then
    (ouncesAfterDigits l 3).orElse fun _ =>
      (ouncesAfterDigits l 2).orElse fun _ =>
        ouncesAfterDigits l 1
  else none

/-- `re.search(r"\b(\d{1,3})\s*fl\s*oz\b", text)`, capture 1. -/
def ouncesScan (text : List Char) : Option String :=
  scanPos ouncesStep none text

/-! ### `_parse_expected_from_item` and `_parse_candidate_modifiers` -/

/-- The qualifier dictionary `{count, size, ounces, drink_type}`. -/
structure Expected where
  count : Option String
  size : Option String
  ounces : Option String
  drink_type : Option String
deriving DecidableEq, Repr

/-- `_parse_expected_from_item`. -/
def parse_expected_from_item (item_name description category : Option String) :
    Expected :=
  let text := (lowerStr ((item_name.getD "") ++ " " ++ (description.getD ""))).toList
  let count :=
    match countScan text with
    | some c => some c
    | none => parenScan text
  let size := (sizeScan text).map pyTitle
  let ounces := ouncesScan text
  let dr0 :=
    if category == some "drink" ||
        (subB "drink".toList text || subB "cola".toList text ||
         subB "sprite".toList text || subB "soda".toList text) then
      some "soft_drink"
    else none
  let dr :=
    if ["coffee", "iced coffee", "latte", "mccafe"].any
        (fun w => subB w.toList text) then
      some "coffee"
    else dr0
  { count := count, size := size, ounces := ounces, drink_type := dr }

/-- `_parse_candidate_modifiers`. -/
def parse_candidate_modifiers (food_name : String) : Expected :=
  let t := (lowerStr food_name).toList
  let count := countScan t
  let size := (sizeScan t).map pyTitle
  let ounces := ouncesScan t
  let dr :=
    if ["coffee", "iced coffee", "latte", "mccafe"].any
        (fun w => subB w.toList t) then
      some "coffee"
    else if ["cola", "coke", "sprite", "soft drink", "soda"].any
        (fun w => subB w.toList t) then
      some "soft_drink"
    else none
  { count := count, size := size, ounces := ounces, drink_type := dr }

/-! ### `_derive_expectations` and `_score_candidate` -/

/-- The `inc`/`exc` helper: append a word unless already present. -/
def addU (l : List String) (w : String) : List String :=
  if l.contains w then l else l ++ [w]

/-- Append several words with `addU`. -/
def addAllU (l : List String) (ws : List String) : List String :=
  ws.foldl addU l

/-- `_derive_expectations`: include/exclude keyword lists. -/
def derive_expectations (item_name : Option String) (category : Option String)
    (required forbidden : Option (List String)) : List String × List String :=
  let name := norm_raw item_name
  let inc0 : List String := []
  let exc0 : List String := ["shake", "mcflurry", "smoothie", "nugget dipping"]
  let p1 :=
    if category == some "entree" || hasSub "sandwich" name then
      (addAllU inc0 ["sandwich", "mcchicken", "chicken sandwich", "crispy chicken"],
       addAllU exc0 ["nugget", "tender", "wrap"])
    else (inc0, exc0)
  let p2 :=
    if category == some "entree" || hasSub "burger" name ||
        hasSub "cheeseburger" name then
      (addAllU p1.1 ["burger", "cheeseburger", "big mac", "quarter pounder"],
       addAllU p1.2 ["nugget", "wrap"])
    else p1
  let p3 :=
    if hasSub "nugget" name then
      (addAllU p2.1 ["nugget"], addAllU p2.2 ["sandwich", "burger"])
    else p2
  let p4 :=
    if category == some "side" || hasSub "fries" name || hasSub "french" name then
      (addAllU p3.1 ["fries"], addAllU p3.2 ["hash brown", "onion ring"])
    else p3
  let p5 :=
    if category == some "drink" ||
        ["soda", "cola", "coke", "sprite", "drink"].any (fun k => hasSub k name) then
      (addAllU p4.1 ["coke", "cola", "soft drink", "sprite", "dr pepper", "fanta"],
       addAllU p4.2 ["shake", "smoothie", "coffee", "iced coffee", "latte", "mccafe"])
    else p4
  let p6 :=
    if ["sandwich", "burger", "fries", "nugget"].any (fun k => hasSub k name) then
      (p5.1, addAllU p5.2 ["shake", "mcflurry", "sundae"])
    else p5
  let p7 :=
    if category == some "sauce" || hasSub "sauce" name || hasSub "packet" name then
      (addAllU p6.1 ["sauce", "packet"], addAllU p6.2 ["dressing", "bottle", "grocery"])
    else p6
  let p8 :=
    ((required.getD []).foldl (fun l k => addU l (lowerStr k)) p7.1,
     (forbidden.getD []).foldl (fun l k => addU l (lowerStr k)) p7.2)
  p8

/-- Fuelled run splitter (fuel bounds the scan length; structural so that the
kernel can evaluate it). -/
def findRunsF (p : Char → Bool) : Nat → List Char → List (List Char)
  | 0, _ => []
  | _, [] => []
  | fuel + 1, c :: rest =>
    if p c then
      (c :: rest.takeWhile p) :: findRunsF p fuel (rest.dropWhile p)
    else findRunsF p fuel rest

/-- `re.findall(r"[a-z0-9]+", ·)`: maximal runs of `[a-z0-9]` characters. -/
def findRuns (p : Char → Bool) (l : List Char) : List (List Char) :=
  findRunsF p l.length l

/-- The token-overlap component of `_score_candidate` (lines 334–337):
`len(set(findall("[a-z0-9]+", _norm_raw(item_name))) ∩
     set(findall("[a-z0-9]+", _norm_raw(food))))`. -/
def token_overlap (item_name : Option String) (food : String) : Nat :=
  let tokens_item := (findRuns lowAlnum (norm_raw item_name).toList).dedup
  let tokens_food := (findRuns lowAlnum (norm_raw (some food)).toList).dedup
  (tokens_item.filter (fun t => tokens_food.contains t)).length

/-- A Nutritionix Instant search hit (a raw candidate dictionary). -/
structure Cand where
  food_name : Option String
  brand_name : Option String
  nix_item_id : Option String
  food_name_input : Option String
  food_name_common : Option String
  food_name_raw : Option String
deriving DecidableEq, Repr

/-- `_score_candidate`. -/
def score_candidate (item_name : Option String) (description category : Option String)
    (required forbidden : Option (List String)) (cand : Cand) : Int :=
  let food := lowerStr (pyOrS cand.food_name "")
  let exp := derive_expectations item_name category required forbidden
  let s_inc : Int := 3 * ((exp.1.filter fun kw => kw != "" && hasSub kw food).length : Int)
  let s_exc : Int := 5 * ((exp.2.filter fun kw => kw != "" && hasSub kw food).length : Int)
  let s_tok : Int := (token_overlap item_name food : Int)
  let s_desc : Int :=
    if truthyS description then
      let desc_l := lowerStr (description.getD "")
      ((exp.1.filter fun kw => kw != "" && hasSub kw desc_l && hasSub kw food).length : Int)
    else 0
  let expected := parse_expected_from_item item_name description category
  let mods := parse_candidate_modifiers (pyOrS cand.food_name "")
  let pen_count : Int :=
    if truthyS expected.count && truthyS mods.count && expected.count != mods.count
    then 6 else 0
  let pen_size : Int :=
    if truthyS expected.size && truthyS mods.size && expected.size != mods.size
    then 4 else 0
  let pen_oz : Int :=
    if truthyS expected.ounces && truthyS mods.ounces && expected.ounces != mods.ounces
    then 3 else 0
  let pen_drink : Int :=
    if expected.drink_type == some "soft_drink" && mods.drink_type == some "coffee"
    then 12 else 0
  let item_l := lowerStr (pyOrS item_name "")
  let pen_double : Int :=
    if hasSub "cheeseburger" item_l &&
        !(hasSub "double cheeseburger" item_l || hasSub "mcdouble" item_l) &&
        ["double", "quarter", "big mac", "double quarter", "quarter pounder"].any
          (fun k => hasSub k food)
    then 14 else 0
  let pen_single : Int :=
    if (hasSub "mcdouble" item_l || hasSub "double cheeseburger" item_l) &&
        (!hasSub "double" food && !hasSub "mcdouble" food)
    then 10 else 0
  let pen_whopper : Int :=
    if hasSub "whopper" item_l && !hasSub "whopper" food then 12 else 0
  s_inc - s_exc + s_tok + s_desc - pen_count - pen_size - pen_oz - pen_drink
    - pen_double - pen_single - pen_whopper

/-! ### Catalog model (Nutritionix endpoints) and nutrient extraction -/

/-- Tuning constants (module top). -/
def NUTRITIONIX_MAX_SEEDS : Nat := 8

/-- `_GOOD_SCORE_THRESHOLD`. -/
def GOOD_SCORE_THRESHOLD : Int := 7

/-- A food dictionary as returned by the nutrient endpoints (the fields the
module reads).  An all-`none` value models the `{}` default taken from
`resp.json().get("foods", [{}])[0]`. -/
structure Food where
  nf_calories : Option Int
  nf_protein : Option Int
  nf_total_carbohydrate : Option Int
  nf_total_fat : Option Int
  serving_qty : Option Int
  serving_unit : Option String
  serving_weight_grams : Option Int
  brand_name : Option String
  food_name : Option String
deriving DecidableEq, Repr

/-- The result of `_extract_macro_fields`. -/
structure NutrientRecord where
  calories : Option Int
  protein_g : Option Int
  carbs_g : Option Int
  fat_g : Option Int
  serving_qty : Option Int
  serving_unit : Option String
  serving_weight_grams : Option Int
  brand_name : Option String
  food_name : Option String
deriving DecidableEq, Repr

/-- `_extract_macro_fields`. -/
def extract_macro_fields (food : Food) : NutrientRecord :=
  { calories := food.nf_calories
    protein_g := food.nf_protein
    carbs_g := food.nf_total_carbohydrate
    fat_g := food.nf_total_fat
    serving_qty := food.serving_qty
    serving_unit := food.serving_unit
    serving_weight_grams := food.serving_weight_grams
    brand_name := food.brand_name
    food_name := food.food_name }

/-- Body of an Instant search response: the two candidate buckets. -/
structure InstantData where
  branded : List Cand
  common : List Cand
deriving Repr

/-- The external Nutritionix service, as oracles.  `Except.error ()` models a
raised exception from `requests`; `.ok (status, body)` a completed response.
`overBudget i` models the `perf_counter` budget test before seed `i` of the
seed-search loop. -/
structure Catalog where
  itemLookup : String → Except Unit (Nat × Food)
  naturalLookup : String → Except Unit (Nat × Food)
  instantLookup : String → Except Unit (Nat × InstantData)
  overBudget : Nat → Bool

/-- `_reject_mismatch` inside `_instant_search_best`. -/
def reject_mismatch (item_name_text : Option String) (candidate_food : String) :
    Bool :=
  let it := lowerStr (pyOrS item_name_text "")
  let cf := lowerStr candidate_food
  (hasSub "cheeseburger" it && !(hasSub "double" it || hasSub "mcdouble" it) &&
    ["double", "quarter", "big mac", "double quarter", "quarter pounder"].any
      (fun k => hasSub k cf)) ||
  ((hasSub "mcdouble" it || hasSub "double cheeseburger" it) &&
    !(hasSub "double" cf || hasSub "mcdouble" cf))

/-- `consider` inside `_instant_search_best`: keep the strictly best-scoring
candidate, hard-rejecting certain mismatches. -/
def considerOne (item_name : Option String) (description category : Option String)
    (required forbidden : Option (List String)) (acc : Option Cand × Int)
    (c : Cand) : Option Cand × Int :=
  let food_name_cand := pyOrS c.food_name ""
  if reject_mismatch item_name food_name_cand then acc
  else
    let sc := score_candidate item_name description category required forbidden c
    if sc > acc.2 then (some c, sc) else acc

/-- The `-10**9` initial best score. -/
def initBest : Option Cand × Int := (none, -(10 ^ 9 : Int))

/-- `_instant_search_best`: one Instant call, picking the best branded/common candidate.
The `try/except` around the request absorbs oracle errors into `none`. -/
def instant_search_best (cat : Catalog) (brand_name : Option String)
    (item_name : Option String) (description category : Option String)
    (required forbidden : Option (List String)) (nutritionix_query : String) :
    Option Cand :=
  match cat.instantLookup nutritionix_query with
  | Except.error _ => none
  | Except.ok (status, data) =>
    if status != 200 then none
    else
      let bn := norm_brand brand_name
      if truthyS brand_name && !is_generic_brand brand_name then
        let acc := data.branded.foldl
          (fun acc c =>
            let bnorm := norm_brand c.brand_name
            if bn != "" && bnorm != "" &&
                (bnorm == bn || hasSub bn bnorm || hasSub bnorm bn) then
              considerOne item_name description category required forbidden acc c
            else acc)
          initBest
        if acc.2 ≥ GOOD_SCORE_THRESHOLD then acc.1
        else
          -- the `common` loop skips every candidate when a strict brand is set
          acc.1
      else
        let acc1 := data.branded.foldl
          (considerOne item_name description category required forbidden) initBest
        let acc2 := data.common.foldl
          (considerOne item_name description category required forbidden) acc1
        acc2.1

/-- The query text posted by `_natural_search_best`. -/
def nsb_text (brand_name : Option String) (nutritionix_query : String) : String :=
  let hint := if is_generic_brand brand_name then none else brand_name
  pyStrip (pyStrip (hint.getD "") ++ " " ++ nutritionix_query)

/-- `_natural_search_best`: one Natural call; the surrounding `try/except`
absorbs oracle errors into `none`. -/
def natural_search_best (cat : Catalog) (brand_name : Option String)
    (nutritionix_query : String) : Option NutrientRecord :=
  let hint := if is_generic_brand brand_name then none else brand_name
  let text := nsb_text brand_name nutritionix_query
  match cat.naturalLookup text with
  | Except.error _ => none
  | Except.ok (status, full) =>
    if status != 200 then none
    else if truthyS hint && truthyS full.brand_name &&
        norm_brand full.brand_name != norm_brand hint then none
    else some (extract_macro_fields full)

/-- The `base_text` chain of the natural-language fallback in
`_nutritionix_nutrients_from_item`. -/
def nl_base_text (item : Cand) : String :=
  pyOrS (orT item.food_name (orT item.food_name_input
    (orT item.food_name_common (orT item.food_name_raw item.food_name)))) ""

/-- The query text posted by the natural-language fallback in
`_nutritionix_nutrients_from_item`. -/
def nl_text (item : Cand) (brand_hint : Option String) : String :=
  let hint := if is_generic_brand brand_hint then none else brand_hint
  if truthyS hint then pyStrip ((hint.getD "") ++ " " ++ nl_base_text item)
  else nl_base_text item

/-- The McDonald's-cheeseburger calorie sanity check inside
`_nutritionix_nutrients_from_item` (reject > 450 kcal). -/
def cheese_sanity_reject (full : Food) : Bool :=
  let food_l := lowerStr (pyOrS full.food_name "")
  let brand_l := norm_brand full.brand_name
  brand_l == "mcdonalds" && hasSub "cheeseburger" food_l &&
    !(["double", "quarter", "big mac"].any fun k => hasSub k food_l) &&
    (match full.nf_calories with
     | some cal => cal > 450
     | none => false)

/-- `_nutritionix_nutrients_from_item`.  The two requests here are **not**
wrapped in `try/except` in the source, so oracle errors propagate. -/
def nutritionix_nutrients_from_item (cat : Catalog) (item : Cand)
    (require_branded : Bool) (brand_hint : Option String) :
    Except Unit (Option NutrientRecord) :=
  if truthyS item.nix_item_id then
    match cat.itemLookup (item.nix_item_id.getD "") with
    | Except.error e => Except.error e
    | Except.ok (status, full) =>
      if status != 200 then Except.ok none
      else if require_branded && truthyS brand_hint && truthyS full.brand_name &&
          norm_brand full.brand_name != norm_brand brand_hint then
        Except.ok none
      else if cheese_sanity_reject full then Except.ok none
      else Except.ok (some (extract_macro_fields full))
  else
    let hint := if is_generic_brand brand_hint then none else brand_hint
    let text := nl_text item brand_hint
    if text == "" then Except.ok none
    else
      match cat.naturalLookup text with
      | Except.error e => Except.error e
      | Except.ok (status, full) =>
        if status != 200 then Except.ok none
        else if truthyS hint && truthyS full.brand_name &&
            norm_brand full.brand_name != norm_brand hint then
          Except.ok none
        else Except.ok (some (extract_macro_fields full))

/-! ### `_generate_item_queries` and `_nutritionix_search_item` -/

/-- The `add` helper of `_generate_item_queries`: strip, drop empties and
duplicates, preserve order. -/
def gqAdd (cands : List String) (q : String) : List String :=
  let q := pyStrip q
  if q != "" && !cands.contains q then cands ++ [q] else cands

/-- `_generate_item_queries`: ordered, deduplicated fallback seed queries. -/
def generate_item_queries (brand_name : Option String) (item_name : Option String)
    (description : Option String) : List String :=
  let base_name := pyOrS item_name ""
  let desc := pyOrS description ""
  let bs := pyOrS brand_name ""
  let c0 := gqAdd [] (bs ++ " " ++ base_name ++ " " ++ desc)
  let c1 := gqAdd c0 (bs ++ " " ++ base_name)
  let c2 := gqAdd c1 base_name
  let hints := parse_expected_from_item item_name description none
  let name_l := lowerStr base_name
  let c3 :=
    if hasSub "fries" name_l || hasSub "french" name_l then
      let a := gqAdd c2 (bs ++ " fries " ++ desc)
      let b := gqAdd a (bs ++ " french fries")
      if truthyS hints.size then gqAdd b (bs ++ " fries " ++ hints.size.getD "")
      else b
    else c2
  let c4 :=
    if hasSub "soda" name_l || hasSub "cola" name_l || hasSub "coke" name_l then
      let a := gqAdd c3 (bs ++ " coca cola " ++ desc)
      let b := gqAdd a (bs ++ " coke " ++ desc)
      let c := gqAdd b (bs ++ " soft drink " ++ desc)
      let d :=
        if truthyS hints.ounces then
          gqAdd c (bs ++ " coca cola " ++ hints.ounces.getD "" ++ " fl oz")
        else c
      if truthyS hints.size then
        gqAdd d (bs ++ " soft drink " ++ hints.size.getD "")
      else d
    else c3
  let c5 :=
    if hasSub "chicken" name_l && hasSub "sandwich" name_l then
      gqAdd (gqAdd c4 (bs ++ " crispy chicken sandwich"))
        (bs ++ " chicken sandwich " ++ desc)
    else c4
  let c6 :=
    if hasSub "nugget" name_l then
      if truthyS hints.count then
        gqAdd (gqAdd c5 (bs ++ " chicken nuggets " ++ hints.count.getD "" ++ " piece"))
          (bs ++ " nuggets " ++ hints.count.getD "" ++ " pc")
      else c5
    else c5
  let c7 :=
    if ["steak", "sirloin", "ribeye", "filet"].any (fun k => hasSub k name_l) then
      gqAdd (gqAdd c6 (bs ++ " steak")) ("grilled steak " ++ desc)
    else c6
  let c8 :=
    if ["shrimp", "prawn"].any (fun k => hasSub k name_l) then
      gqAdd (gqAdd c7 (bs ++ " grilled shrimp")) ("shrimp " ++ desc)
    else c7
  let c9 :=
    if hasSub "baked potato" name_l ||
        (hasSub "potato" name_l && hasSub "baked" name_l) then
      gqAdd (gqAdd c8 "baked potato") (bs ++ " baked potato " ++ desc)
    else c8
  let c10 :=
    if ["sauce", "dipping", "dip"].any (fun k => hasSub k name_l) then
      gqAdd (gqAdd c9 "dipping sauce") ("sauce " ++ desc)
    else c9
  c10.filter (fun q => q != "")

/-- The seed loop of `_nutritionix_search_item`: iterate the first
`_NUTRITIONIX_MAX_SEEDS` seeds under the wall-clock budget, tracking the
single best-scoring candidate, stopping early at the score threshold. -/
def seedLoop (cat : Catalog) (brand_name : Option String)
    (item_name : Option String) (description category : Option String)
    (required forbidden : Option (List String)) :
    List String → Nat → Option Cand → Int → Option Cand
  | [], _, best, _ => best
  | q :: rest, idx, best, bestScore =>
    if cat.overBudget idx then best
    else
      match instant_search_best cat brand_name item_name description category
          required forbidden q with
      | none =>
        seedLoop cat brand_name item_name description category required
          forbidden rest (idx + 1) best bestScore
      | some c =>
        let sc := score_candidate item_name description category required
          forbidden c
        let acc := if sc > bestScore then (some c, sc) else (best, bestScore)
        if acc.2 ≥ GOOD_SCORE_THRESHOLD then acc.1
        else
          seedLoop cat brand_name item_name description category required
            forbidden rest (idx + 1) acc.1 acc.2

/-- `_nutritionix_search_item`: deterministic query first, then the seed loop. -/
def nutritionix_search_item (cat : Catalog) (brand_name : Option String)
    (item_name : Option String) (description category : Option String)
    (required forbidden : Option (List String))
    (nutritionix_query : Option String) : Option Cand :=
  let det :=
    if truthyS nutritionix_query then
      instant_search_best cat brand_name item_name description category
        required forbidden (nutritionix_query.getD "")
    else none
  match det with
  | some best => some best
  | none =>
    let seeds := (generate_item_queries brand_name item_name description).take
      NUTRITIONIX_MAX_SEEDS
    seedLoop cat brand_name item_name description category required forbidden
      seeds 0 none (-(10 ^ 9 : Int))

/-! ### `_title_size_from_enum` and `_build_nutritionix_query_for_item` -/

/-- An itemizer entry (the dictionary fields `process_entry` and the query
builder read). -/
structure Entry where
  item_name : Option String
  description : Option String
  category : Option String
  required_keywords : Option (List String)
  forbidden_keywords : Option (List String)
  nutritionix_query : Option String
  quantity : Option Int
  portion_detail : Option String
  size : Option String
deriving DecidableEq, Repr

/-- `_title_size_from_enum`. -/
def title_size_from_enum (size_enum : Option String) : Option String :=
  if !truthyS size_enum then none
  else
    let m := upperStr (pyStrip (size_enum.getD ""))
    if m == "XS" then some "XS"
    else if m == "S" then some "Small"
    else if m == "M" then some "Medium"
    else if m == "L" then some "Large"
    else if m == "XL" then some "XL"
    else if m == "UNKNOWN" then none
    else size_enum

/-- `with_brand` inside `_build_nutritionix_query_for_item`. -/
def with_brand (brand_name : Option String) (s : String) : String :=
  if truthyS brand_name && !is_generic_brand brand_name then
    pyStrip ((brand_name.getD "") ++ " " ++ s)
  else s

/-- The lowered `f"{name} {desc} {portion}"` text the query builder branches
on. -/
def build_text (entry : Entry) : String :=
  let name := pyStrip (pyOrS entry.item_name "")
  let desc := pyStrip (pyOrS entry.description "")
  let portion := pyStrip (pyOrS entry.portion_detail "")
  lowerStr (name ++ " " ++ desc ++ " " ++ portion)

/-- The drink-branch guard of the query builder (line 636). -/
def drink_cond (text : String) : Bool :=
  ["drink", "cola", "coke", "sprite", "soda", "cup"].any fun k => hasSub k text

/-- The explicit coffee-cue test of the query builder (line 638; the third
literal is the mojibake `mccafÃ©` present in the source). -/
def coffee_cue (text : String) : Bool :=
  hasSub "coffee" text || hasSub "iced coffee" text || hasSub "latte" text ||
  hasSub "mccafÃ©" text || hasSub "mccafe" text

/-- The `expected` qualifiers the query builder extracts (line 597):
`_parse_expected_from_item(name, f"{desc} {portion}", entry.get("category"))`. -/
def build_expected (entry : Entry) : Expected :=
  parse_expected_from_item (some (pyStrip (pyOrS entry.item_name "")))
    (some (pyStrip (pyOrS entry.description "") ++ " " ++
      pyStrip (pyOrS entry.portion_detail "")))
    entry.category

/-- `_build_nutritionix_query_for_item`. -/
def build_nutritionix_query_for_item (brand_name : Option String)
    (entry : Entry) : String :=
  let name := pyStrip (pyOrS entry.item_name "")
  let desc := pyStrip (pyOrS entry.description "")
  let portion := pyStrip (pyOrS entry.portion_detail "")
  let size_word := title_size_from_enum entry.size
  let brand_n := norm_raw brand_name
  let text := build_text entry
  let expected := build_expected entry
  if hasSub "nugget" text then
    let count0 := expected.count
    let count1 :=
      if !truthyS count0 &&
          (hasSub "pc box" (lowerStr portion) || hasSub "ct" (lowerStr portion)) then
        match countScan (lowerStr portion).toList with
        | some c => some c
        | none => count0
      else count0
    let count :=
      if !truthyS count1 && desc != "" then
        match countScanVis (lowerStr desc).toList with
        | some c => some c
        | none => count1
      else count1
    if brand_n == "mcdonalds" then
      if truthyS count then
        with_brand brand_name ("Chicken McNuggets " ++ count.getD "" ++ " Piece")
      else with_brand brand_name "Chicken McNuggets"
    else
      if truthyS count then
        with_brand brand_name ("chicken nuggets " ++ count.getD "" ++ " piece")
      else with_brand brand_name "chicken nuggets"
  else if hasSub "fries" text || hasSub "french fries" text then
    if brand_n == "mcdonalds" then
      match size_word with
      | some w => with_brand brand_name ("World Famous Fries " ++ w)
      | none => with_brand brand_name "World Famous Fries"
    else
      match size_word with
      | some w => with_brand brand_name ("French fries " ++ w)
      | none => with_brand brand_name "French fries"
  else if drink_cond text then
    let ounces := expected.ounces
    if coffee_cue text then
      pyStrip (with_brand brand_name
        (match ounces with
         | some oz => "Iced Coffee " ++ oz ++ " fl oz"
         | none => "Iced Coffee"))
    else if hasSub "sprite" text then
      with_brand brand_name (pyStrip
        (match ounces with
         | some oz => "Sprite " ++ oz ++ " fl oz"
         | none => pyOrS size_word ""))
    else if ["coca-cola", "coke", "cola"].any (fun k => hasSub k text) then
      with_brand brand_name (pyStrip
        (match ounces with
         | some oz => "Coca-Cola " ++ oz ++ " fl oz"
         | none => pyOrS size_word ""))
    else
      pyStrip (with_brand brand_name
        (match ounces with
         | some oz => "Coca-Cola " ++ oz ++ " fl oz"
         | none => pyOrS size_word "Medium"))
  else if (hasSub "barbecue" text || hasSub "bbq" text) && hasSub "sauce" text then
    with_brand brand_name "Barbecue Sauce Packet"
  else if hasSub "ranch" text && hasSub "sauce" text then
    with_brand brand_name "Creamy Ranch Packet"
  else if hasSub "cheeseburger" text then
    with_brand brand_name "Cheeseburger"
  else if hasSub "mccrispy" text then
    with_brand brand_name "McCrispy"
  else if hasSub "carrot" text then
    if brand_n == "mcdonalds" then
      with_brand brand_name "Carrot Sticks Kids Bag"
    else with_brand brand_name "Carrot sticks"
  else with_brand brand_name name

/-! ### `process_entry`, the result cache and `fetch_nutritionix_macros` -/

/-- One resolved item, as built at the end of `process_entry`. -/
structure ResolvedResult where
  item_name : Option String
  description : Option String
  quantity : Int
  nutritionix_match : Option Cand
  macros : Option NutrientRecord
deriving DecidableEq, Repr

/-- The module-level `_CACHE_MACROS` dictionary: an association list where
lookup takes the most recent binding (insertion prepends). -/
def Cache : Type := List (String × ResolvedResult)

/-- Dictionary lookup on the cache. -/
def cacheGet (cache : Cache) (key : String) : Option ResolvedResult :=
  List.lookup key cache

/-- `_cache_key_for_item`. -/
def cache_key_for_item (brand name desc : Option String) : String :=
  norm_brand (some (pyOrS brand "")) ++ "|" ++
    lowerStr (pyStrip (pyOrS name "")) ++ "|" ++
    lowerStr (pyStrip (pyOrS desc ""))

/-- The bounded refinement loop of `process_entry`
(`while attempts < 2 and nutrients is None`).  Each iteration rebuilds the
deterministic query, retries the text search once, then falls back to the
free-text nutrient lookup.  The returned `Nat` is the final `attempts`
counter. -/
def refine_loop_fuel (cat : Catalog) (brand : Option String) (entry : Entry)
    (nq name desc category : Option String)
    (req forb : Option (List String)) :
    Nat → Nat → Option Cand → Option NutrientRecord →
    Except Unit (Option Cand × Option NutrientRecord × Nat)
  | 0, attempts, m, n => Except.ok (m, n, attempts)
  | fuel + 1, attempts, m, n =>
    if attempts < 2 ∧ n = none then
      let det_q := pyOrStr (build_nutritionix_query_for_item brand entry)
        (pyOrS nq (pyOrS name ""))
      match instant_search_best cat brand (some (pyOrS name "")) desc category
          req forb det_q with
      | some refined =>
        match nutritionix_nutrients_from_item cat refined (truthyS brand) brand with
        | Except.error e => Except.error e
        | Except.ok fetched =>
          let n1 :=
            match fetched with
            | some x => some x
            | none => natural_search_best cat brand det_q
          refine_loop_fuel cat brand entry nq name desc category req forb
            fuel (attempts + 1) (some refined) n1
      | none =>
        refine_loop_fuel cat brand entry nq name desc category req forb
          fuel (attempts + 1) m (natural_search_best cat brand det_q)
    else Except.ok (m, n, attempts)

/-- The bounded refinement loop, entered with `fuel = 2 - attempts` so the
structural fuel never runs out before the loop guard
`attempts < 2 and nutrients is None` fails. -/
def refine_loop (cat : Catalog) (brand : Option String) (entry : Entry)
    (nq name desc category : Option String)
    (req forb : Option (List String)) (attempts : Nat) (m : Option Cand)
    (n : Option NutrientRecord) :
    Except Unit (Option Cand × Option NutrientRecord × Nat) :=
  refine_loop_fuel cat brand entry nq name desc category req forb
    (2 - attempts) attempts m n

/-- The McDonald's strict cheeseburger retry of `process_entry` (lines
794–807).  The whole block sits in `try/except Exception: pass`, so an
exception from the inner nutrient fetch is swallowed after `match` has
already been reassigned. -/
def cheese_strict_step (cat : Catalog) (brand : Option String)
    (name desc category : Option String) (req forb : Option (List String))
    (m : Option Cand) (n : Option NutrientRecord) :
    Option Cand × Option NutrientRecord :=
  match n with
  | none => (m, n)
  | some r =>
    if norm_brand (some (pyOrS brand "")) == "mcdonalds" then
      let nm_l := lowerStr (pyOrS name "")
      if hasSub "cheeseburger" nm_l &&
          !(["double", "quarter", "big mac"].any fun x => hasSub x nm_l) then
        match r.calories with
        | some cal =>
          if cal > 450 then
            let strict_q := pyStr brand ++ " Cheeseburger"
            match instant_search_best cat brand (some (pyOrS name "")) desc
                category req forb strict_q with
            | some refined2 =>
              match nutritionix_nutrients_from_item cat refined2 true brand with
              | Except.error _ => (some refined2, n)
              | Except.ok fetched =>
                (some refined2,
                 match fetched with
                 | some x => some x
                 | none => natural_search_best cat brand strict_q)
            | none => (m, n)
          else (m, n)
        | none => (m, n)
      else (m, n)
    else (m, n)

/-- The final result dictionary of `process_entry`, including the
placeholder-name back-fill. -/
def finish_result (entry : Entry) (m : Option Cand)
    (n : Option NutrientRecord) : ResolvedResult :=
  let name := entry.item_name
  let qty := pyOrI entry.quantity 1
  let name_l := lowerStr (pyStrip (pyOrS name ""))
  let final_name :=
    if ["unidentified item", "unidentified", "unknown"].contains name_l ||
        hasSub "best guess" name_l then
      if m.isSome && truthyS (m.bind Cand.food_name) then m.bind Cand.food_name
      else if n.isSome && truthyS (n.bind NutrientRecord.food_name) then
        n.bind NutrientRecord.food_name
      else name
    else name
  { item_name := final_name
    description := entry.description
    quantity := qty
    nutritionix_match := m
    macros := n }

/-- The network part of `process_entry` (everything between the cache miss and
building the result): deterministic-first search, nutrient fetch, natural
fallback, the refinement loop and the strict cheeseburger retry. -/
def process_entry_core (cat : Catalog) (brand : Option String) (entry : Entry) :
    Except Unit (Option Cand × Option NutrientRecord) :=
  let name := entry.item_name
  let desc := entry.description
  let category := entry.category
  let req := entry.required_keywords
  let forb := entry.forbidden_keywords
  let nq := entry.nutritionix_query
  let m0 := nutritionix_search_item cat brand name desc category req forb nq
  match (match m0 with
         | some m => nutritionix_nutrients_from_item cat m (truthyS brand) brand
         | none => Except.ok none) with
  | Except.error e => Except.error e
  | Except.ok n0 =>
    let n1 :=
      if n0.isNone && truthyS nq then
        natural_search_best cat brand (nq.getD "")
      else n0
    match refine_loop cat brand entry nq name desc category req forb 0 m0 n1 with
    | Except.error e => Except.error e
    | Except.ok (m2, n2, _) =>
      let p := cheese_strict_step cat brand name desc category req forb m2 n2
      Except.ok p

/-- `process_entry`: cache lookup before any network activity, then the core
resolution, then populate the cache. -/
def process_entry (cat : Catalog) (brand : Option String) (cache : Cache)
    (entry : Entry) : Except Unit (ResolvedResult × Cache) :=
  let key := cache_key_for_item brand entry.item_name entry.description
  match cacheGet cache key with
  | some cached => Except.ok (cached, cache)
  | none =>
    match process_entry_core cat brand entry with
    | Except.error e => Except.error e
    | Except.ok (m, n) =>
      let result := finish_result entry m n
      Except.ok (result, (key, result) :: cache)

/-- The itemizer output consumed by `fetch_nutritionix_macros`. -/
structure Itemized where
  restaurant_name : Option String
  items : List Entry

/-- The batch return value (`duration_ms` is wall-clock and not modelled). -/
structure BatchResult where
  restaurant_name : Option String
  results : List ResolvedResult
deriving DecidableEq, Repr

/-- The fan-out over the batch: one `process_entry` per item, threading the
shared cache (a sequential schedule of the thread pool).  `fut.result()` in
the `as_completed` loop re-raises a worker exception, which the fold models by
propagating `Except.error`. -/
def run_batch (cat : Catalog) (brand : Option String) :
    Cache → List Entry → Except Unit (List ResolvedResult × Cache)
  | cache, [] => Except.ok ([], cache)
  | cache, e :: es =>
    match process_entry cat brand cache e with
    | Except.error err => Except.error err
    | Except.ok (r, cache1) =>
      match run_batch cat brand cache1 es with
      | Except.error err => Except.error err
      | Except.ok (rs, cache2) => Except.ok (r :: rs, cache2)

/-- `fetch_nutritionix_macros`. -/
def fetch_nutritionix_macros (cat : Catalog) (itemized : Itemized)
    (cache : Cache) : Except Unit BatchResult :=
  match run_batch cat itemized.restaurant_name cache itemized.items with
  | Except.error e => Except.error e
  | Except.ok (rs, _) =>
    Except.ok { restaurant_name := itemized.restaurant_name, results := rs }

/-! ### Spec-side comparison definition for the token-overlap claim -/

/-- Following the spec's words for the token component of the score
("count of shared normalized word tokens between item name and candidate
name"): lowercase both names, split them into maximal `[a-z0-9]` word tokens,
and count the distinct shared tokens.  This is the comparison definition for
the refinement claim about `token_overlap`; the source definition is
`token_overlap` above. -/
def spec_shared_word_token_count (item_name food : String) : Nat :=
  let ti := (findRuns lowAlnum (lowerStr item_name).toList).dedup
  let tf := (findRuns lowAlnum (lowerStr food).toList).dedup
  (ti.filter fun t => tf.contains t).length

/-! ### Concrete fixtures for witnesses and counterexamples -/

/-- A branded McDonald's cheeseburger food response. -/
def foodMcd : Food :=
  { nf_calories := some 300, nf_protein := some 15,
    nf_total_carbohydrate := some 33, nf_total_fat := some 13,
    serving_qty := some 1, serving_unit := some "item",
    serving_weight_grams := some 119,
    brand_name := some "McDonalds", food_name := some "Cheeseburger" }

/-- A food response that carries no `brand_name`. -/
def foodNoBrand : Food :=
  { nf_calories := some 600, nf_protein := some 20,
    nf_total_carbohydrate := some 50, nf_total_fat := some 30,
    serving_qty := some 1, serving_unit := some "serving",
    serving_weight_grams := some 250,
    brand_name := none, food_name := some "cheeseburger deluxe" }

/-- A candidate carrying a catalog id. -/
def candWithId : Cand :=
  { food_name := some "Cheeseburger", brand_name := some "McDonalds",
    nix_item_id := some "id1", food_name_input := none,
    food_name_common := none, food_name_raw := none }

/-- A candidate without a catalog id. -/
def candNoId : Cand :=
  { food_name := some "cheeseburger", brand_name := none,
    nix_item_id := none, food_name_input := none,
    food_name_common := none, food_name_raw := none }

/-- Candidate `"BrandX Cheeseburger"` of spec Example 1. -/
def candPlain : Cand :=
  { food_name := some "BrandX Cheeseburger", brand_name := some "BrandX",
    nix_item_id := none, food_name_input := none,
    food_name_common := none, food_name_raw := none }

/-- Candidate `"BrandX Double Cheeseburger"` of spec Example 1. -/
def candDouble : Cand :=
  { food_name := some "BrandX Double Cheeseburger", brand_name := some "BrandX",
    nix_item_id := none, food_name_input := none,
    food_name_common := none, food_name_raw := none }

/-- A catalog on which every endpoint raises (all calls fail). -/
def catAllFail : Catalog :=
  { itemLookup := fun _ => Except.error ()
    naturalLookup := fun _ => Except.error ()
    instantLookup := fun _ => Except.error ()
    overBudget := fun _ => false }

/-- A catalog whose nutrient endpoints answer `foodMcd` with status 200 and
whose Instant endpoint raises (always absorbed by the source). -/
def catAccept : Catalog :=
  { itemLookup := fun _ => Except.ok (200, foodMcd)
    naturalLookup := fun _ => Except.ok (200, foodMcd)
    instantLookup := fun _ => Except.error ()
    overBudget := fun _ => false }

/-- A catalog whose nutrient endpoints answer `foodNoBrand` with status 200. -/
def catNoBrand : Catalog :=
  { itemLookup := fun _ => Except.ok (200, foodNoBrand)
    naturalLookup := fun _ => Except.ok (200, foodNoBrand)
    instantLookup := fun _ => Except.error ()
    overBudget := fun _ => false }

/-- A catalog whose Instant search succeeds with an id-carrying candidate but
whose nutrient endpoints raise: the id fetch then raises outside any
`try/except`. -/
def catFetchRaises : Catalog :=
  { itemLookup := fun _ => Except.error ()
    naturalLookup := fun _ => Except.error ()
    instantLookup := fun _ => Except.ok (200, { branded := [], common := [candWithId] })
    overBudget := fun _ => false }

/-- Batch entry `"fries"` with quantity 1. -/
def entryFries1 : Entry :=
  { item_name := some "fries", description := none, category := none,
    required_keywords := none, forbidden_keywords := none,
    nutritionix_query := none, quantity := some 1,
    portion_detail := none, size := none }

/-- Batch entry `"fries"` with quantity 2 (same cache key as `entryFries1`). -/
def entryFries2 : Entry :=
  { entryFries1 with quantity := some 2 }

/-- The result `process_entry` computes for `entryFries1` on `catAllFail`. -/
def resFries1 : ResolvedResult :=
  { item_name := some "fries", description := none, quantity := 1,
    nutritionix_match := none, macros := none }

/-- The result `process_entry` computes for `entryFries2` on `catAllFail`
when the cache is empty. -/
def resFries2 : ResolvedResult :=
  { item_name := some "fries", description := none, quantity := 2,
    nutritionix_match := none, macros := none }

/-- Batch entry `"burger"` whose search finds `candWithId`. -/
def entryBurger : Entry :=
  { item_name := some "burger", description := none, category := none,
    required_keywords := none, forbidden_keywords := none,
    nutritionix_query := none, quantity := some 1,
    portion_detail := none, size := none }

/-- A cached entry used by the cache-idempotence witness. -/
def entryCached : Entry :=
  { item_name := some "Burger", description := some "big", category := none,
    required_keywords := none, forbidden_keywords := none,
    nutritionix_query := none, quantity := some 3,
    portion_detail := none, size := none }

/-- The cached resolution for `entryCached`. -/
def resCached : ResolvedResult :=
  { item_name := some "Burger", description := some "big", quantity := 3,
    nutritionix_match := none, macros := none }

/-- A five-item batch (spec Example 3 shape). -/
def itemized5 : Itemized :=
  { restaurant_name := none
    items :=
      [{ entryBurger with item_name := some "a1" },
       { entryBurger with item_name := some "a2" },
       { entryBurger with item_name := some "a3" },
       { entryBurger with item_name := some "a4" },
       { entryBurger with item_name := some "a5" }] }

/-- Spec Example 2 entry: Chicken Nuggets, `(6 pc box)`. -/
def entryNuggets : Entry :=
  { item_name := some "Chicken Nuggets", description := some "(6 pc box)",
    category := none, required_keywords := none, forbidden_keywords := none,
    nutritionix_query := none, quantity := some 1,
    portion_detail := none, size := none }

/-- Drink entry with explicit coffee cues and a known size but no ounces. -/
def entryIcedCoffee : Entry :=
  { item_name := some "Iced Coffee Drink", description := none,
    category := none, required_keywords := none, forbidden_keywords := none,
    nutritionix_query := none, quantity := some 1,
    portion_detail := none, size := some "L" }

/-- Drink entry `"Coke"`, size M, no ounces, no coffee cues. -/
def entryCoke : Entry :=
  { item_name := some "Coke", description := none,
    category := none, required_keywords := none, forbidden_keywords := none,
    nutritionix_query := none, quantity := some 1,
    portion_detail := none, size := some "M" }

/-- Tests that the first character of a word is non-whitespace. -/
def headNonspace (w : String) : Bool :=
  match w.toList with
  | [] => false
  | c :: _ => !pySpace c

/-- Tests that the last character of a word is non-whitespace. -/
def lastNonspace (w : String) : Bool :=
  match w.toList.reverse with
  | [] => false
  | z :: _ => !pySpace z

/-! ## Theorems

### Substring and strip lemmas -/

theorem prefixB_iff (p l : List Char) : prefixB p l = true ↔ ∃ t, l = p ++ t := by
  induction p generalizing l with
  | nil => simp [prefixB]
  | cons a as ih =>
    cases l with
    | nil => simp [prefixB]
    | cons b bs =>
      simp only [prefixB, Bool.and_eq_true, beq_iff_eq, ih]
      constructor
      · rintro ⟨rfl, t, rfl⟩
        exact ⟨t, rfl⟩
      · rintro ⟨t, h⟩
        cases h
        exact ⟨rfl, t, rfl⟩

theorem subB_iff (p l : List Char) : subB p l = true ↔ subList p l := by
  induction l with
  | nil =>
    simp only [subB, List.isEmpty_iff, subList]
    constructor
    · rintro rfl
      exact ⟨[], [], rfl⟩
    · rintro ⟨s, t, h⟩
      rcases List.append_eq_nil.mp ((List.append_eq_nil.mp h.symm).1) with ⟨_, h2⟩
      exact h2
  | cons c tl ih =>
    simp only [subB, Bool.or_eq_true, prefixB_iff, ih]
    constructor
    · rintro (⟨t, h⟩ | ⟨s, t, h⟩)
      · exact ⟨[], t, h⟩
      · exact ⟨c :: s, t, by simp [h]⟩
    · rintro ⟨s, t, h⟩
      cases s with
      | nil => exact Or.inl ⟨t, by simpa using h⟩
      | cons d ds =>
        right
        rw [List.cons_append, List.cons_append] at h
        injection h with h1 h2
        exact ⟨ds, t, h2⟩
      
theorem subList_trans {p q l : List Char} (h1 : subList p q) (h2 : subList q l) :
    subList p l := by
  rcases h1 with ⟨s1, t1, rfl⟩
  rcases h2 with ⟨s2, t2, rfl⟩
  exact ⟨s2 ++ s1, t1 ++ t2, by simp⟩

theorem subList_mem {p l : List Char} {c : Char} (h : subList p l) (hc : c ∈ p) :
    c ∈ l := by
  rcases h with ⟨s, t, rfl⟩
  simp [hc]

theorem dropSp_decomp (l : List Char) : ∃ u, l = u ++ dropSp l := by
  exact ⟨l.takeWhile pySpace, (List.takeWhile_append_dropWhile pySpace l).symm⟩

theorem stripChars_decomp (l : List Char) :
    ∃ u v, l = u ++ stripChars l ++ v := by
  rcases dropSp_decomp l.reverse with ⟨v1, hv1⟩
  rcases dropSp_decomp ((dropSp l.reverse).reverse) with ⟨u, hu⟩
  refine ⟨u, v1.reverse, ?_⟩
  have hl : l = (dropSp l.reverse).reverse ++ v1.reverse := by
    have := congrArg List.reverse hv1
    simpa using this
  have hu2 : (dropSp l.reverse).reverse = u ++ stripChars l := hu
  conv_lhs => rw [hl]
  rw [hu2, List.append_assoc]

theorem subList_stripChars {p l : List Char} (h : subList p (stripChars l)) :
    subList p l := by
  rcases stripChars_decomp l with ⟨u, v, hl⟩
  exact subList_trans h ⟨u, v, hl⟩

theorem mem_stripChars {c : Char} {l : List Char} (h : c ∈ stripChars l) :
    c ∈ l := by
  rcases stripChars_decomp l with ⟨u, v, hl⟩
  rw [hl]
  simp [h]

theorem dropSp_cons_of_nonspace {c : Char} (hc : pySpace c = false)
    (l : List Char) : dropSp (c :: l) = c :: l := by
  simp [dropSp, List.dropWhile_cons, hc]

theorem suffix_dropSp {p : List Char} {c : Char} {p' : List Char}
    (hp : p = c :: p') (hc : pySpace c = false) :
    ∀ {l u : List Char}, l = u ++ p → ∃ u2, dropSp l = u2 ++ p := by
  intro l u h
  induction u generalizing l with
  | nil =>
    refine ⟨[], ?_⟩
    rw [List.nil_append] at h ⊢
    rw [h, hp]
    exact dropSp_cons_of_nonspace hc p'
  | cons d u' ih =>
    subst h
    cases hd : pySpace d with
    | true =>
      rcases ih (l := u' ++ p) rfl with ⟨u2, h2⟩
      refine ⟨u2, ?_⟩
      rw [List.cons_append, dropSp, List.dropWhile_cons, if_pos hd]
      exact h2
    | false =>
      exact ⟨d :: u', by rw [List.cons_append, dropSp_cons_of_nonspace hd]⟩

theorem reverse_head_of_suffix {p l u : List Char} {z : Char} {zs : List Char}
    (h : l = u ++ p) (hz : p.reverse = z :: zs) :
    ∃ w, l.reverse = z :: w := by
  subst h
  rw [List.reverse_append, hz]
  exact ⟨zs ++ u.reverse, by simp⟩

theorem stripChars_of_rev_nonspace {l : List Char} {z : Char} {w : List Char}
    (h : l.reverse = z :: w) (hz : pySpace z = false) :
    stripChars l = dropSp l := by
  rw [stripChars, h, dropSp_cons_of_nonspace hz]
  rw [← h, List.reverse_reverse]

theorem suffix_stripChars {p l : List Char} {c z : Char} {p' zs : List Char}
    (hp : p = c :: p') (hc : pySpace c = false)
    (hz : p.reverse = z :: zs) (hzs : pySpace z = false)
    (h : ∃ u, l = u ++ p) : ∃ u2, stripChars l = u2 ++ p := by
  rcases h with ⟨u, rfl⟩
  rcases reverse_head_of_suffix rfl hz with ⟨w, hw⟩
  rw [stripChars_of_rev_nonspace hw hzs]
  exact suffix_dropSp hp hc rfl

theorem prefix_last_mem {z : Char} :
    ∀ (p x y : List Char), (∃ zs, p.reverse = z :: zs) →
      (∃ t, x ++ y = p ++ t) → (∃ t2, x = p ++ t2) ∨ z ∈ y := by
  intro p
  induction p with
  | nil =>
    intro x y hz _
    rcases hz with ⟨zs, h⟩
    simp at h
  | cons c p' ih =>
    intro x y hz hxy
    cases x with
    | nil =>
      right
      rcases hxy with ⟨t, ht⟩
      have hzp : z ∈ c :: p' := by
        rcases hz with ⟨zs, h⟩
        have hmem : z ∈ (c :: p').reverse := by rw [h]; simp
        exact List.mem_reverse.mp hmem
      rw [List.nil_append] at ht
      rw [ht]
      rcases List.mem_cons.mp hzp with h1 | h2
      · subst h1
        exact List.mem_cons_self _ _
      · exact List.mem_cons_of_mem _ (List.mem_append.mpr (Or.inl h2))
    | cons d x' =>
      rcases hxy with ⟨t, ht⟩
      simp only [List.cons_append, List.append_assoc] at ht
      injection ht with h1 h2
      cases p' with
      | nil =>
        left
        refine ⟨x', ?_⟩
        rw [h1]
        simp
      | cons e p'' =>
        have hz' : ∃ zs', (e :: p'').reverse = z :: zs' := by
          rcases hz with ⟨zs, h⟩
          rw [List.reverse_cons] at h
          rcases hrev : (e :: p'').reverse with _ | ⟨z1, w⟩
          · exact absurd hrev (by simp)
          · rw [hrev, List.cons_append] at h
            injection h with hz1 _
            exact ⟨w, by rw [hz1]⟩
        rcases ih x' y hz' ⟨t, by rw [h2]⟩ with ⟨t2, ht2⟩ | hzy
        · exact Or.inl ⟨t2, by rw [List.cons_append, h1, ht2]⟩
        · exact Or.inr hzy

theorem subList_last_mem {z : Char} {p : List Char}
    (hz : ∃ zs, p.reverse = z :: zs) :
    ∀ (a b : List Char), subList p (a ++ b) → subList p a ∨ z ∈ b := by
  intro a
  induction a with
  | nil =>
    intro b h
    right
    have hzp : z ∈ p := by
      rcases hz with ⟨zs, hrev⟩
      have hmem : z ∈ p.reverse := by rw [hrev]; simp
      simpa using hmem
    exact subList_mem (by simpa using h) hzp
  | cons d a' ih =>
    intro b h
    rcases h with ⟨s, t, hst⟩
    cases s with
    | nil =>
      rcases prefix_last_mem p (d :: a') b hz
          ⟨t, by rw [List.cons_append]; simpa using hst⟩ with ⟨t2, ht2⟩ | hzb
      · exact Or.inl ⟨[], t2, by simpa using ht2⟩
      · exact Or.inr hzb
    | cons e s' =>
      simp only [List.cons_append] at hst
      injection hst with h1 h2
      rcases ih b ⟨s', t, h2⟩ with hsub | hzb
      · rcases hsub with ⟨s2, t2, h3⟩
        exact Or.inl ⟨d :: s2, t2, by rw [h3]; simp⟩
      · exact Or.inr hzb

theorem dropSp_head {l : List Char} {c : Char} {t : List Char}
    (h : dropSp l = c :: t) : pySpace c = false := by
  induction l with
  | nil => simp [dropSp] at h
  | cons d l' ih =>
    by_cases hd : pySpace d = true
    · rw [dropSp, List.dropWhile_cons, if_pos hd] at h
      exact ih h
    · rw [dropSp, List.dropWhile_cons, if_neg hd] at h
      injection h with h1 _
      subst h1
      simpa using hd

theorem dropSp_idem (l : List Char) : dropSp (dropSp l) = dropSp l := by
  rcases h : dropSp l with _ | ⟨c, t⟩
  · simp [dropSp]
  · exact dropSp_cons_of_nonspace (dropSp_head h) t

theorem stripChars_idem (l : List Char) :
    stripChars (stripChars l) = stripChars l := by
  rcases hA : stripChars l with _ | ⟨c, t⟩
  · simp [stripChars, dropSp]
  · rcases hrev : (stripChars l).reverse with _ | ⟨z, w⟩
    · rw [hA] at hrev
      exact absurd hrev (by simp)
    · have hz : pySpace z = false := by
        rcases dropSp_decomp ((dropSp l.reverse).reverse) with ⟨u, hu⟩
        have hR : ((dropSp l.reverse).reverse).reverse =
            (stripChars l).reverse ++ u.reverse := by
          conv_lhs => rw [hu]
          rw [List.reverse_append]
          rfl
        rw [List.reverse_reverse, hrev] at hR
        rw [List.cons_append] at hR
        exact dropSp_head hR
      have hc : pySpace c = false := by
        have : dropSp ((dropSp l.reverse).reverse) = c :: t := hA
        exact dropSp_head this
      have hrev2 : (c :: t).reverse = z :: w := by
        rw [← hA]
        exact hrev
      rw [stripChars, hrev2, dropSp_cons_of_nonspace hz, ← hrev2,
        List.reverse_reverse, dropSp_cons_of_nonspace hc]

/-! ### Scanner and token-run support lemmas -/

theorem scanPos_some {step : Option Char → List Char → Option String}
    {r : String} : ∀ {prev : Option Char} {l : List Char},
    scanPos step prev l = some r → ∃ prev2 l2, step prev2 l2 = some r := by
  intro prev l
  induction l generalizing prev with
  | nil =>
    intro h
    simp [scanPos] at h
  | cons c rest ih =>
    intro h
    simp only [scanPos] at h
    split at h
    · next s hs =>
      exact ⟨prev, c :: rest, by rw [hs, h]⟩
    · next hs => exact ih h

theorem orElse_cases {a : Option String} {f : Unit → Option String} {r : String}
    (h : a.orElse f = some r) : a = some r ∨ (a = none ∧ f () = some r) := by
  cases a <;> simp_all [Option.orElse]

theorem ouncesAfterDigits_digits {l : List Char} {k : Nat} {s : String}
    (hk : k ≠ 0) (h : ouncesAfterDigits l k = some s) :
    s.toList ≠ [] ∧ s.toList.all Char.isDigit = true := by
  simp only [ouncesAfterDigits] at h
  split_ifs at h with h1 h2 h3
  · injection h with h4
    subst h4
    rw [Bool.and_eq_true] at h1
    rcases h1 with ⟨hlen, hdig⟩
    refine ⟨?_, hdig⟩
    intro hnil
    rw [show (String.mk (l.take k)).toList = l.take k from rfl] at hnil
    rw [hnil] at hlen
    simp at hlen
    exact hk hlen.symm

theorem ouncesStep_digits {prev : Option Char} {l : List Char} {s : String}
    (h : ouncesStep prev l = some s) :
    s.toList ≠ [] ∧ s.toList.all Char.isDigit = true := by
  rw [ouncesStep] at h
  split_ifs at h
  rcases orElse_cases h with h3 | ⟨_, h23⟩
  · exact ouncesAfterDigits_digits (by omega) h3
  · rcases orElse_cases h23 with h2 | ⟨_, h13⟩
    · exact ouncesAfterDigits_digits (by omega) h2
    · exact ouncesAfterDigits_digits (by omega) h13

theorem ouncesScan_digits {text : List Char} {s : String}
    (h : ouncesScan text = some s) :
    s.toList ≠ [] ∧ s.toList.all Char.isDigit = true := by
  rcases scanPos_some h with ⟨prev2, l2, h2⟩
  exact ouncesStep_digits h2

theorem digit_not_space {c : Char} (h : c.isDigit = true) :
    pySpace c = false := by
  by_contra hs
  rw [Bool.not_eq_false] at hs
  simp only [pySpace, Bool.or_eq_true, beq_iff_eq] at hs
  rcases hs with ((((rfl | rfl) | rfl) | rfl) | rfl) | rfl <;>
    exact absurd h (by decide)

theorem findRunsF_nil (p : Char → Bool) (fuel : Nat) :
    findRunsF p fuel [] = [] := by
  cases fuel <;> rfl

theorem findRuns_all {p : Char → Bool} {l : List Char} (h1 : l ≠ [])
    (h2 : l.all p = true) : findRuns p l = [l] := by
  cases l with
  | nil => exact absurd rfl h1
  | cons c rest =>
    rw [List.all_cons, Bool.and_eq_true] at h2
    rcases h2 with ⟨hc, hall⟩
    rw [List.all_eq_true] at hall
    rw [findRuns, List.length_cons]
    simp only [findRunsF]
    rw [if_pos hc, List.takeWhile_eq_self_iff.mpr hall,
      List.dropWhile_eq_nil_iff.mpr hall, findRunsF_nil]

/-! ### Query-builder support lemmas -/

theorem toList_append (a b : String) :
    (a ++ b).toList = a.toList ++ b.toList := rfl

theorem toList_pyStrip (s : String) :
    (pyStrip s).toList = stripChars s.toList := rfl

theorem mem_of_rev_head {p : List Char} {z : Char} {zs : List Char}
    (hz : p.reverse = z :: zs) : z ∈ p := by
  have hmem : z ∈ p.reverse := by rw [hz]; simp
  exact List.mem_reverse.mp hmem

theorem withBrand_nosub {p : List Char} {z : Char} {zs : List Char}
    (hz : p.reverse = z :: zs) (brand : Option String) (core : String)
    (hb : subB p ((pyOrS brand "" ++ " ").toList) = false)
    (hcore : z ∈ core.toList → False) :
    subB p ((with_brand brand core).toList) = false ∧
    subB p ((pyStrip (with_brand brand core)).toList) = false := by
  have key : subList p ((with_brand brand core).toList) → False := by
    intro hsl
    rw [with_brand] at hsl
    split_ifs at hsl with hcond
    · rw [toList_pyStrip] at hsl
      have hsl2 := subList_stripChars hsl
      rw [toList_append, toList_append] at hsl2
      rw [List.append_assoc] at hsl2
      have hgd : (brand.getD "") = pyOrS brand "" := by
        rw [Bool.and_eq_true] at hcond
        rw [pyOrS, if_pos hcond.1]
      rcases subList_last_mem ⟨zs, hz⟩ ((brand.getD "").toList ++ " ".toList)
          core.toList (by rw [List.append_assoc]; exact hsl2) with hA | hzc
      · have hA2 : subB p ((pyOrS brand "" ++ " ").toList) = true := by
          refine (subB_iff _ _).mpr ?_
          rw [toList_append, ← hgd]
          exact hA
        rw [hA2] at hb
        simp at hb
      · exact hcore hzc
    · exact hcore (subList_mem hsl (mem_of_rev_head hz))
  constructor
  · by_contra hcon
    rw [Bool.not_eq_false] at hcon
    exact key ((subB_iff _ _).mp hcon)
  · by_contra hcon
    rw [Bool.not_eq_false] at hcon
    have h1 : subList p (stripChars (with_brand brand core).toList) := by
      rw [← toList_pyStrip]
      exact (subB_iff _ _).mp hcon
    exact key (subList_stripChars h1)

theorem withBrand_suffix {suf : String} {c z : Char} {p' zs : List Char}
    (hp : suf.toList = c :: p') (hc : pySpace c = false)
    (hz : suf.toList.reverse = z :: zs) (hzs : pySpace z = false)
    (brand : Option String) (core : String)
    (hsuf : ∃ u, core.toList = u ++ suf.toList) :
    subB suf.toList ((with_brand brand core).toList) = true ∧
    subB suf.toList ((pyStrip (with_brand brand core)).toList) = true := by
  have key : ∃ u2, (with_brand brand core).toList = u2 ++ suf.toList := by
    rw [with_brand]
    split_ifs with hcond
    · rw [toList_pyStrip, toList_append, toList_append]
      rcases hsuf with ⟨u, hu⟩
      refine suffix_stripChars hp hc hz hzs ?_
      exact ⟨(brand.getD "").toList ++ " ".toList ++ u, by
        rw [hu]
        simp [List.append_assoc]⟩
    · exact hsuf
  rcases key with ⟨u2, hu2⟩
  constructor
  · exact (subB_iff _ _).mpr ⟨u2, [], by rw [hu2, List.append_nil]⟩
  · rcases suffix_stripChars hp hc hz hzs ⟨u2, hu2⟩ with ⟨u3, hu3⟩
    rw [toList_pyStrip]
    exact (subB_iff _ _).mpr ⟨u3, [], by rw [hu3, List.append_nil]⟩

theorem pyStrip_withBrand_strip (brand : Option String) (s : String) :
    pyStrip (with_brand brand (pyStrip s)) = with_brand brand (pyStrip s) := by
  rw [with_brand]
  split_ifs with hcond
  · show String.mk (stripChars (stripChars _)) = _
    rw [stripChars_idem]
    rfl
  · show String.mk (stripChars (stripChars s.toList)) = _
    rw [stripChars_idem]
    rfl

theorem pyStrip_withBrand_idem (brand : Option String) (s : String)
    (hs : pyStrip s = s) :
    pyStrip (with_brand brand s) = with_brand brand s := by
  conv_lhs => rw [← hs]
  rw [pyStrip_withBrand_strip, hs]

/-! ### Claims -/

/-- C9: for item_name="Cheeseburger" with brand="BrandX" and the two
candidates "BrandX Cheeseburger" and "BrandX Double Cheeseburger", the scorer
assigns "BrandX Cheeseburger" a strictly higher score than
"BrandX Double Cheeseburger" after the upsize-confusion penalty for a plain
cheeseburger item matched against a candidate containing "double". -/
theorem c9_cheeseburger_ranking :
    score_candidate (some "Cheeseburger") none none none none candDouble <
      score_candidate (some "Cheeseburger") none none none none candPlain :=
  by decide

/-- C10: for item_name="Chicken Nuggets" with description="(6 pc box)" and
brand="BrandX", qualifier extraction returns count="6" and the composed
canonical query is the brand's nugget template instantiated with count 6:
"BrandX chicken nuggets 6 piece". -/
theorem c10_nugget_template :
    (parse_expected_from_item (some "Chicken Nuggets") (some "(6 pc box)")
        none).count = some "6" ∧
    (build_expected entryNuggets).count = some "6" ∧
    build_nutritionix_query_for_item (some "BrandX") entryNuggets =
      "BrandX chicken nuggets 6 piece" :=
  by decide

theorem finish_result_quantity (entry : Entry) (m : Option Cand)
    (n : Option NutrientRecord) :
    (finish_result entry m n).quantity = pyOrI entry.quantity 1 := rfl

/-- C5: resolving an already-cached (brand, name, description) key returns the
cached, value-equal resolved item with the cache unchanged.  The catalog `cat`
is universally quantified and absent from the right-hand side, so the result
involves no outbound call: the cache lookup in `process_entry` happens before
any network activity. -/
theorem c5_cache_idempotent (cat : Catalog) (brand : Option String)
    (cache : Cache) (entry : Entry) (r : ResolvedResult)
    (h : cacheGet cache
      (cache_key_for_item brand entry.item_name entry.description) = some r) :
    process_entry cat brand cache entry = Except.ok (r, cache) := by
  rw [process_entry, h]

/-- C5 witness: a concrete cached entry, resolved again on the all-failing
catalog, returns the cached value. -/
theorem c5_cache_idempotent_witness :
    process_entry catAllFail (some "BrandX")
      [("brandx|burger|big", resCached)] entryCached =
      Except.ok (resCached, [("brandx|burger|big", resCached)]) :=
  c5_cache_idempotent catAllFail (some "BrandX")
    [("brandx|burger|big", resCached)] entryCached resCached rfl

/-- C4 (amended): when the item's (brand, name, description) key is not
already in the cache and the input quantity is ≥ 1, the returned resolved
item's quantity equals the input quantity.  (On a cache hit the cached item is
returned wholesale, including its quantity — see the counterexample.) -/
theorem c4_quantity_passthrough (cat : Catalog) (brand : Option String)
    (cache : Cache) (entry : Entry) (q : Int) (r : ResolvedResult) (c2 : Cache)
    (hq : entry.quantity = some q) (h1 : 1 ≤ q)
    (hmiss : cacheGet cache
      (cache_key_for_item brand entry.item_name entry.description) = none)
    (hok : process_entry cat brand cache entry = Except.ok (r, c2)) :
    r.quantity = q := by
  rw [process_entry, hmiss] at hok
  rcases hcore : process_entry_core cat brand entry with e | ⟨m, n⟩
  · rw [hcore] at hok
    exact absurd hok (by simp)
  · rw [hcore] at hok
    simp only [Except.ok.injEq, Prod.mk.injEq] at hok
    rw [← hok.1, finish_result_quantity, hq]
    have hne : ¬ q = 0 := by omega
    simp [pyOrI, hne]

/-- C4 counterexample: two items in one batch share the cache key
(brand, name, description) but differ in quantity; the second gets the cached
first result, so its output quantity is 1 while its input quantity is 2 —
refuting "for every item in a batch, output quantity equals input
quantity". -/
theorem c4_quantity_counterexample :
    fetch_nutritionix_macros catAllFail
        { restaurant_name := none, items := [entryFries1, entryFries2] } [] =
      Except.ok { restaurant_name := none, results := [resFries1, resFries1] } ∧
    entryFries2.quantity = some 2 ∧ resFries1.quantity = 1 :=
  ⟨rfl, rfl, rfl⟩

/-- C4 witness: a cache-missing item with quantity 2 resolves with quantity
2. -/
theorem c4_quantity_passthrough_witness : resFries2.quantity = 2 :=
  c4_quantity_passthrough catAllFail none [] entryFries2 2 resFries2
    [("|fries|", resFries2)] rfl (by norm_num) rfl rfl

theorem refine_loop_fuel_attempts (cat : Catalog) (brand : Option String)
    (entry : Entry) (nq name desc category : Option String)
    (req forb : Option (List String)) :
    ∀ (fuel attempts : Nat) (m : Option Cand) (n : Option NutrientRecord)
      (r : Option Cand × Option NutrientRecord × Nat),
      refine_loop_fuel cat brand entry nq name desc category req forb
        fuel attempts m n = Except.ok r →
      r.2.2 ≤ attempts + fuel := by
  intro fuel
  induction fuel with
  | zero =>
    intro attempts m n r h
    simp only [refine_loop_fuel] at h
    injection h with h1
    rw [← h1]
    simp
  | succ fuel ih =>
    intro attempts m n r h
    simp only [refine_loop_fuel] at h
    split_ifs at h with hc
    · split at h
      · split at h
        · exact absurd h (by simp)
        · have := ih (attempts + 1) _ _ r h
          omega
      · have := ih (attempts + 1) _ _ r h
        omega
    · injection h with h1
      rw [← h1]
      simp

/-- C6: when the initial lookup yields no nutrient record, the refinement
loop performs at most 2 attempts in total — entered at `attempts = 0`, every
`ok` outcome carries a final attempts counter ≤ 2.  Termination is intrinsic:
`refine_loop` is a total function. -/
theorem c6_bounded_refinement (cat : Catalog) (brand : Option String)
    (entry : Entry) (nq name desc category : Option String)
    (req forb : Option (List String)) (m : Option Cand)
    (n : Option NutrientRecord) (m2 : Option Cand)
    (n2 : Option NutrientRecord) (k : Nat)
    (h : refine_loop cat brand entry nq name desc category req forb 0 m n =
      Except.ok (m2, n2, k)) : k ≤ 2 := by
  rw [refine_loop] at h
  have := refine_loop_fuel_attempts cat brand entry nq name desc category
    req forb (2 - 0) 0 m n (m2, n2, k) h
  simpa using this

/-- C6 witness: on the all-failing catalog the loop runs exactly its two
refinement attempts and stops. -/
theorem c6_bounded_refinement_witness :
    refine_loop catAllFail none entryFries1 none (some "fries") none none none
      none 0 none none = Except.ok (none, none, 2) ∧ (2 : Nat) ≤ 2 :=
  ⟨rfl, c6_bounded_refinement catAllFail none entryFries1 none (some "fries")
    none none none none none none none none 2 rfl⟩

/-- C7 counterexample: for item name "Chicken Nuggets" and candidate food
"chicken nuggets 6 piece" the spec's count of shared normalized word tokens is
2, but the component computed by the code is 0 — `_norm_raw` collapses the
name to a single token before `re.findall` splits it, so per-word overlap is
never counted. -/
theorem c7_token_overlap_counterexample :
    token_overlap (some "Chicken Nuggets") "chicken nuggets 6 piece" = 0 ∧
    spec_shared_word_token_count "Chicken Nuggets" "chicken nuggets 6 piece" = 2 := by
  decide

theorem norm_raw_all (s : Option String) :
    ((norm_raw s).toList).all lowAlnum = true := by
  rw [show (norm_raw s).toList =
    ((s.getD "").toList.map Char.toLower).filter lowAlnum from rfl]
  rw [List.all_eq_true]
  intro x hx
  exact (List.mem_filter.mp hx).2

theorem string_empty_iff (s : String) : s = "" ↔ s.toList = [] := by
  constructor
  · rintro rfl
    rfl
  · intro h
    exact String.ext h

theorem overlap_lists (A B : List Char) (hA : A.all lowAlnum = true)
    (hB : B.all lowAlnum = true) :
    ((findRuns lowAlnum A).dedup.filter
      fun t => ((findRuns lowAlnum B).dedup).contains t).length =
    if A = B ∧ A ≠ [] then 1 else 0 := by
  by_cases hA0 : A = []
  · subst hA0
    rw [if_neg (by simp)]
    rfl
  · have h1 : findRuns lowAlnum A = [A] := findRuns_all hA0 hA
    by_cases hB0 : B = []
    · subst hB0
      rw [h1]
      rw [show findRuns lowAlnum [] = [] from rfl]
      rw [if_neg (by simp [hA0])]
      simp
    · have h2 : findRuns lowAlnum B = [B] := findRuns_all hB0 hB
      rw [h1, h2]
      by_cases hAB : A = B
      · subst hAB
        rw [if_pos ⟨rfl, hA0⟩]
        simp
      · rw [if_neg (by simp [hAB])]
        simp [List.contains, hAB]

/-- C7 (amended): the additive component at lines 334–337 is not a per-word
shared-token count; because `_norm_raw` strips all non-alphanumerics first, it
equals 1 when the fully collapsed normalizations of the item name and the
candidate name are equal and non-empty, and 0 otherwise. -/
theorem c7_token_overlap_amended (item_name : Option String) (food : String) :
    token_overlap item_name food =
      if norm_raw item_name = norm_raw (some food) ∧ norm_raw item_name ≠ ""
      then 1 else 0 := by
  rw [token_overlap]
  rw [overlap_lists _ _ (norm_raw_all _) (norm_raw_all _)]
  by_cases h : norm_raw item_name = norm_raw (some food) ∧
      norm_raw item_name ≠ ""
  · rw [if_pos h, if_pos]
    refine ⟨congrArg String.toList h.1, ?_⟩
    intro hnil
    exact h.2 ((string_empty_iff _).mpr hnil)
  · rw [if_neg h, if_neg]
    intro hc
    exact h ⟨String.ext hc.1, fun he => hc.2 ((string_empty_iff _).mp he)⟩

theorem extract_brand_name (f : Food) :
    (extract_macro_fields f).brand_name = f.brand_name := rfl

theorem norm_brand_of_not_truthy {s : Option String} (h : truthyS s = false) :
    norm_brand s = "" := by
  cases s with
  | none => rfl
  | some t =>
    rw [truthyS] at h
    have ht : t = "" := by simpa using h
    subst ht
    rfl

theorem cheese_sanity_not_truthy {full : Food}
    (h : truthyS full.brand_name = false) :
    cheese_sanity_reject full = false := by
  simp [cheese_sanity_reject, norm_brand_of_not_truthy h]

/-- C1 (amended): brand-lock holds for every accepted nutrient record that
carries a non-empty `brand_name` — in the id-fetch path (under
`require_branded` and a truthy hint), the natural-language fallback and the
natural-search path (both under a specific, non-generic brand), the record's
normalized brand equals the normalized requested brand.  A record whose
`brand_name` is absent or empty is accepted without any brand comparison (see
the counterexample and C2). -/
theorem c1_brand_lock_amended :
    (∀ (cat : Catalog) (item : Cand) (brand_hint : Option String)
        (r : NutrientRecord),
      nutritionix_nutrients_from_item cat item true brand_hint =
        Except.ok (some r) →
      truthyS item.nix_item_id = true → truthyS brand_hint = true →
      truthyS r.brand_name = true →
      norm_brand r.brand_name = norm_brand brand_hint) ∧
    (∀ (cat : Catalog) (item : Cand) (rb : Bool) (brand_hint : Option String)
        (r : NutrientRecord),
      nutritionix_nutrients_from_item cat item rb brand_hint =
        Except.ok (some r) →
      truthyS item.nix_item_id = false → is_generic_brand brand_hint = false →
      truthyS r.brand_name = true →
      norm_brand r.brand_name = norm_brand brand_hint) ∧
    (∀ (cat : Catalog) (brand_name : Option String) (q : String)
        (r : NutrientRecord),
      natural_search_best cat brand_name q = some r →
      is_generic_brand brand_name = false → truthyS r.brand_name = true →
      norm_brand r.brand_name = norm_brand brand_name) := by
  have generic_truthy : ∀ {b : Option String}, is_generic_brand b = false →
      truthyS b = true := by
    intro b hgen
    by_contra hf
    rw [Bool.not_eq_true] at hf
    cases hb : b with
    | none => rw [hb] at hgen; exact absurd hgen (by decide)
    | some t =>
      rw [hb, truthyS] at hf
      have ht : t = "" := by simpa using hf
      subst ht
      rw [hb] at hgen
      exact absurd hgen (by decide)
  refine ⟨?_, ?_, ?_⟩
  · intro cat item brand_hint r h hid hbh hrb
    rw [nutritionix_nutrients_from_item, if_pos hid] at h
    split at h
    · exact absurd h (by simp)
    · split_ifs at h with h200 hbrand hsan
      · exact absurd h (by simp)
      · exact absurd h (by simp)
      · exact absurd h (by simp)
      · simp only [Except.ok.injEq, Option.some.injEq] at h
        subst h
        rw [extract_brand_name] at hrb ⊢
        simp [hbh, hrb] at hbrand
        exact hbrand
  · intro cat item rb brand_hint r h hid hgen hrb
    rw [nutritionix_nutrients_from_item] at h
    rw [if_neg (by rw [hid]; simp)] at h
    simp only [hgen, Bool.false_eq_true, if_false] at h
    split_ifs at h with htext
    · exact absurd h (by simp)
    · split at h
      · exact absurd h (by simp)
      · split_ifs at h with h200 hbrand
        · exact absurd h (by simp)
        · exact absurd h (by simp)
        · simp only [Except.ok.injEq, Option.some.injEq] at h
          subst h
          rw [extract_brand_name] at hrb ⊢
          simp [generic_truthy hgen, hrb] at hbrand
          exact hbrand
  · intro cat brand_name q r h hgen hrb
    rw [natural_search_best] at h
    simp only [hgen, Bool.false_eq_true, if_false] at h
    split at h
    · exact absurd h (by simp)
    · split_ifs at h with h200 hbrand
      simp only [Option.some.injEq] at h
      subst h
      rw [extract_brand_name] at hrb ⊢
      simp [generic_truthy hgen, hrb] at hbrand
      exact hbrand

/-- C1 counterexample: under the specific (non-generic) brand requirement
"McDonalds", the id-fetch path accepts a nutrient record whose `brand_name`
is absent, so the accepted record's normalized brand ("") differs from the
normalized requested brand ("mcdonalds") — refuting the claim that every
accepted record's normalized brand equals the requested one. -/
theorem c1_brand_lock_counterexample :
    nutritionix_nutrients_from_item catNoBrand candWithId true
        (some "McDonalds") =
      Except.ok (some (extract_macro_fields foodNoBrand)) ∧
    norm_brand (extract_macro_fields foodNoBrand).brand_name ≠
      norm_brand (some "McDonalds") ∧
    is_generic_brand (some "McDonalds") = false := by
  refine ⟨rfl, ?_, rfl⟩
  decide

/-- C1 witness: concrete accepted records with non-empty brands on all three
paths, whose normalized brands equal the normalized requested brands. -/
theorem c1_brand_lock_witness :
    norm_brand (extract_macro_fields foodMcd).brand_name =
      norm_brand (some "McDonalds") ∧
    norm_brand (extract_macro_fields foodMcd).brand_name =
      norm_brand (some "McDonald") ∧
    norm_brand (extract_macro_fields foodMcd).brand_name =
      norm_brand (some "mcdonalds") :=
  ⟨c1_brand_lock_amended.1 catAccept candWithId (some "McDonalds")
      (extract_macro_fields foodMcd) rfl rfl rfl rfl,
   c1_brand_lock_amended.2.1 catAccept candNoId true (some "McDonald")
      (extract_macro_fields foodMcd) rfl rfl rfl rfl,
   c1_brand_lock_amended.2.2 catAccept (some "mcdonalds") "cheeseburger"
      (extract_macro_fields foodMcd) rfl rfl rfl⟩

/-- C2: when the fetched nutrient record carries no `brand_name` (absent or
empty), it is accepted without any brand comparison even when a specific
brand is required, in all three fetch paths: the id fetch, the
natural-language fallback and the natural-search path each return the
extracted record whenever the endpoint answers 200, for every
`require_branded` flag and every brand hint. -/
theorem c2_empty_brand_accepted :
    (∀ (cat : Catalog) (item : Cand) (rb : Bool) (hint : Option String)
        (full : Food),
      truthyS item.nix_item_id = true →
      cat.itemLookup (item.nix_item_id.getD "") = Except.ok (200, full) →
      truthyS full.brand_name = false →
      nutritionix_nutrients_from_item cat item rb hint =
        Except.ok (some (extract_macro_fields full))) ∧
    (∀ (cat : Catalog) (item : Cand) (rb : Bool) (hint : Option String)
        (full : Food),
      truthyS item.nix_item_id = false →
      nl_text item hint ≠ "" →
      cat.naturalLookup (nl_text item hint) = Except.ok (200, full) →
      truthyS full.brand_name = false →
      nutritionix_nutrients_from_item cat item rb hint =
        Except.ok (some (extract_macro_fields full))) ∧
    (∀ (cat : Catalog) (brand : Option String) (q : String) (full : Food),
      cat.naturalLookup (nsb_text brand q) = Except.ok (200, full) →
      truthyS full.brand_name = false →
      natural_search_best cat brand q = some (extract_macro_fields full)) := by
  refine ⟨?_, ?_, ?_⟩
  · intro cat item rb hint full hid hlook hfb
    rw [nutritionix_nutrients_from_item, if_pos hid, hlook]
    simp [hfb, cheese_sanity_not_truthy hfb]
  · intro cat item rb hint full hid htext hlook hfb
    rw [nutritionix_nutrients_from_item]
    rw [if_neg (by rw [hid]; simp)]
    rw [if_neg (by simpa using htext)]
    rw [hlook]
    simp [hfb]
  · intro cat brand q full hlook hfb
    rw [natural_search_best, hlook]
    simp [hfb]

/-- C2 witness: concrete brand-less records accepted under the specific brand
"McDonalds" in all three paths. -/
theorem c2_empty_brand_accepted_witness :
    nutritionix_nutrients_from_item catNoBrand candWithId true
        (some "McDonalds") =
      Except.ok (some (extract_macro_fields foodNoBrand)) ∧
    nutritionix_nutrients_from_item catNoBrand candNoId true
        (some "McDonalds") =
      Except.ok (some (extract_macro_fields foodNoBrand)) ∧
    natural_search_best catNoBrand (some "McDonalds") "cheeseburger" =
      some (extract_macro_fields foodNoBrand) :=
  ⟨c2_empty_brand_accepted.1 catNoBrand candWithId true (some "McDonalds")
      foodNoBrand rfl rfl rfl,
   c2_empty_brand_accepted.2.1 catNoBrand candNoId true (some "McDonalds")
      foodNoBrand rfl (by decide) rfl rfl,
   c2_empty_brand_accepted.2.2 catNoBrand (some "McDonalds") "cheeseburger"
      foodNoBrand rfl rfl⟩

/-- C3 counterexample: a 1-item batch where the Instant search succeeds with
an id-carrying candidate but the id-based nutrient fetch raises.  The
exception is not caught (`_nutritionix_nutrients_from_item` performs the
request outside any `try/except`, and `fut.result()` re-raises it), so the
batch call propagates the exception instead of returning one result per
item. -/
theorem c3_batch_abort_counterexample :
    fetch_nutritionix_macros catFetchRaises
        { restaurant_name := none, items := [entryBurger] } [] =
      Except.error () := rfl

theorem nutrients_from_item_ok (cat : Catalog)
    (hI : ∀ s, cat.itemLookup s ≠ Except.error ())
    (hN : ∀ (it : Cand) (bh : Option String),
      cat.naturalLookup (nl_text it bh) ≠ Except.error ())
    (item : Cand) (rb : Bool) (hint : Option String) :
    ∃ v, nutritionix_nutrients_from_item cat item rb hint = Except.ok v := by
  by_cases hid : truthyS item.nix_item_id = true
  · rw [nutritionix_nutrients_from_item, if_pos hid]
    rcases hl : cat.itemLookup (item.nix_item_id.getD "") with e | ⟨st, f⟩
    · cases e
      exact absurd hl (hI _)
    · dsimp only
      split_ifs <;> exact ⟨_, rfl⟩
  · rw [nutritionix_nutrients_from_item, if_neg hid]
    by_cases htext : (nl_text item hint == "") = true
    · exact ⟨none, by rw [if_pos htext]⟩
    · rw [if_neg htext]
      rcases hl : cat.naturalLookup (nl_text item hint) with e | ⟨st, f⟩
      · cases e
        exact absurd hl (hN item hint)
      · dsimp only
        split_ifs <;> exact ⟨_, rfl⟩

theorem refine_loop_fuel_ok (cat : Catalog)
    (hI : ∀ s, cat.itemLookup s ≠ Except.error ())
    (hN : ∀ (it : Cand) (bh : Option String),
      cat.naturalLookup (nl_text it bh) ≠ Except.error ())
    (brand : Option String) (entry : Entry)
    (nq name desc category : Option String)
    (req forb : Option (List String)) :
    ∀ (fuel attempts : Nat) (m : Option Cand) (n : Option NutrientRecord),
      ∃ v, refine_loop_fuel cat brand entry nq name desc category req forb
        fuel attempts m n = Except.ok v := by
  intro fuel
  induction fuel with
  | zero =>
    intro attempts m n
    exact ⟨_, rfl⟩
  | succ fuel ih =>
    intro attempts m n
    simp only [refine_loop_fuel]
    split_ifs with hc
    · rcases hins : instant_search_best cat brand (some (pyOrS name "")) desc
          category req forb (pyOrStr (build_nutritionix_query_for_item brand entry)
            (pyOrS nq (pyOrS name ""))) with _ | refined
      · dsimp only
        exact ih (attempts + 1) m _
      · dsimp only
        obtain ⟨v, hv⟩ := nutrients_from_item_ok cat hI hN refined
          (truthyS brand) brand
        rw [hv]
        dsimp only
        exact ih (attempts + 1) (some refined) _
    · exact ⟨_, rfl⟩

theorem process_entry_ok (cat : Catalog)
    (hI : ∀ s, cat.itemLookup s ≠ Except.error ())
    (hN : ∀ (it : Cand) (bh : Option String),
      cat.naturalLookup (nl_text it bh) ≠ Except.error ())
    (brand : Option String) (cache : Cache) (entry : Entry) :
    ∃ v, process_entry cat brand cache entry = Except.ok v := by
  rw [process_entry]
  rcases hcg : cacheGet cache
      (cache_key_for_item brand entry.item_name entry.description) with _ | r
  · dsimp only
    have hcore : ∃ w, process_entry_core cat brand entry = Except.ok w := by
      rw [process_entry_core]
      dsimp only
      have hn0 : ∃ n0,
          (match nutritionix_search_item cat brand entry.item_name
              entry.description entry.category entry.required_keywords
              entry.forbidden_keywords entry.nutritionix_query with
           | some m => nutritionix_nutrients_from_item cat m (truthyS brand) brand
           | none => Except.ok none) = Except.ok n0 := by
        rcases hm0 : nutritionix_search_item cat brand entry.item_name
            entry.description entry.category entry.required_keywords
            entry.forbidden_keywords entry.nutritionix_query with _ | m
        · exact ⟨none, rfl⟩
        · exact nutrients_from_item_ok cat hI hN m (truthyS brand) brand
      obtain ⟨n0, hn0⟩ := hn0
      rw [hn0]
      dsimp only
      obtain ⟨⟨m2, n2, k⟩, hrl⟩ := refine_loop_fuel_ok cat hI hN brand entry
        entry.nutritionix_query entry.item_name entry.description
        entry.category entry.required_keywords entry.forbidden_keywords
        (2 - 0) 0 (nutritionix_search_item cat brand entry.item_name
          entry.description entry.category entry.required_keywords
          entry.forbidden_keywords entry.nutritionix_query)
        (if n0.isNone && truthyS entry.nutritionix_query then
          natural_search_best cat brand (entry.nutritionix_query.getD "")
         else n0)
      rw [refine_loop, hrl]
      exact ⟨_, rfl⟩
    obtain ⟨⟨m, n⟩, hw⟩ := hcore
    rw [hw]
    exact ⟨_, rfl⟩
  · exact ⟨_, rfl⟩

theorem run_batch_ok (cat : Catalog)
    (hI : ∀ s, cat.itemLookup s ≠ Except.error ())
    (hN : ∀ (it : Cand) (bh : Option String),
      cat.naturalLookup (nl_text it bh) ≠ Except.error ())
    (brand : Option String) :
    ∀ (items : List Entry) (cache : Cache),
      ∃ rs c2, run_batch cat brand cache items = Except.ok (rs, c2) ∧
        rs.length = items.length := by
  intro items
  induction items with
  | nil =>
    intro cache
    exact ⟨[], cache, rfl, rfl⟩
  | cons e es ih =>
    intro cache
    obtain ⟨⟨r, c1⟩, hp⟩ := process_entry_ok cat hI hN brand cache e
    obtain ⟨rs, c2, hb, hlen⟩ := ih c1
    refine ⟨r :: rs, c2, ?_, by simp [hlen]⟩
    simp only [run_batch]
    rw [hp]
    dsimp only
    rw [hb]

/-- C3 (amended): exceptions raised inside the catalog text-search calls and
the wrapped free-text lookups are absorbed and downgraded to unresolved
results, so whenever the two unwrapped nutrient-fetch requests inside
`_nutritionix_nutrients_from_item` do not raise — the id fetch (the only
caller of `itemLookup`) and the natural-language fallback, which posts
exactly the `nl_text`-shaped query strings — the batch call returns exactly
one result per input item and propagates no exception.  The Instant search
endpoint and the `nsb_text`-shaped posts of `_natural_search_best` are left
unconstrained: raises there are absorbed where the source wraps them.  (When
one of the two unwrapped fetches raises, the exception aborts the batch —
see the counterexample.) -/
theorem c3_batch_no_abort_amended (cat : Catalog) (itemized : Itemized)
    (cache : Cache)
    (hI : ∀ s, cat.itemLookup s ≠ Except.error ())
    (hN : ∀ (it : Cand) (bh : Option String),
      cat.naturalLookup (nl_text it bh) ≠ Except.error ()) :
    (fetch_nutritionix_macros cat itemized cache).map
      (fun br => br.results.length) = Except.ok itemized.items.length := by
  obtain ⟨rs, c2, hb, hlen⟩ := run_batch_ok cat hI hN itemized.restaurant_name
    itemized.items cache
  rw [fetch_nutritionix_macros, hb]
  simp [Except.map, hlen]

/-- C3 witness: a 5-item batch on a catalog whose nutrient endpoints never
raise returns exactly 5 results. -/
theorem c3_batch_no_abort_witness :
    (fetch_nutritionix_macros catAccept itemized5 []).map
      (fun br => br.results.length) = Except.ok 5 :=
  c3_batch_no_abort_amended catAccept itemized5 []
    (fun _ h => Except.noConfusion h) (fun _ _ h => Except.noConfusion h)

theorem build_query_drink_branch (brand : Option String) (entry : Entry)
    (h1 : hasSub "nugget" (build_text entry) = false)
    (h2 : (hasSub "fries" (build_text entry) ||
      hasSub "french fries" (build_text entry)) = false)
    (h3 : drink_cond (build_text entry) = true) :
    build_nutritionix_query_for_item brand entry =
      (if coffee_cue (build_text entry) then
        pyStrip (with_brand brand
          (match (build_expected entry).ounces with
           | some oz => "Iced Coffee " ++ oz ++ " fl oz"
           | none => "Iced Coffee"))
      else if hasSub "sprite" (build_text entry) then
        with_brand brand (pyStrip
          (match (build_expected entry).ounces with
           | some oz => "Sprite " ++ oz ++ " fl oz"
           | none => pyOrS (title_size_from_enum entry.size) ""))
      else if ["coca-cola", "coke", "cola"].any
          (fun k => hasSub k (build_text entry)) then
        with_brand brand (pyStrip
          (match (build_expected entry).ounces with
           | some oz => "Coca-Cola " ++ oz ++ " fl oz"
           | none => pyOrS (title_size_from_enum entry.size) ""))
      else
        pyStrip (with_brand brand
          (match (build_expected entry).ounces with
           | some oz => "Coca-Cola " ++ oz ++ " fl oz"
           | none => pyOrS (title_size_from_enum entry.size) "Medium"))) := by
  rw [build_nutritionix_query_for_item]
  dsimp only
  rw [if_neg (by rw [h1]; simp), if_neg (by rw [h2]; simp), if_pos h3]

theorem parse_expected_ounces (a b c : Option String) :
    (parse_expected_from_item a b c).ounces =
      ouncesScan (lowerStr ((a.getD "") ++ " " ++ (b.getD ""))).toList := rfl

theorem no_char_parts {c : Char} {pre oz suf : String}
    (hcd : c.isDigit = false)
    (hd : oz.toList.all Char.isDigit = true)
    (hpre : (c ∈ pre.toList) → False) (hsuf : (c ∈ suf.toList) → False) :
    (c ∈ (pre ++ oz ++ suf).toList) → False := by
  intro h
  rw [toList_append, toList_append] at h
  rcases List.mem_append.mp h with h2 | h2
  · rcases List.mem_append.mp h2 with h3 | h3
    · exact hpre h3
    · rw [List.all_eq_true] at hd
      have := hd _ h3
      rw [hcd] at this
      exact absurd this (by decide)
  · exact hsuf h2

theorem no_icedcoffee_of_no_I {core : String}
    (hI : ('I' ∈ core.toList) → False) :
    hasSub "Iced Coffee" core = false := by
  by_contra h
  rw [Bool.not_eq_false] at h
  exact hI (subList_mem ((subB_iff _ _).mp h) (by decide))

theorem oz_suf_head {oz : String} (hne : oz.toList ≠ [])
    (hd : oz.toList.all Char.isDigit = true) (suf : String) :
    ∃ c p', (oz ++ suf).toList = c :: p' ∧ pySpace c = false := by
  rcases hoz : oz.toList with _ | ⟨d, rest⟩
  · exact absurd hoz hne
  · refine ⟨d, rest ++ suf.toList, ?_, ?_⟩
    · rw [toList_append, hoz, List.cons_append]
    · apply digit_not_space
      rw [List.all_eq_true] at hd
      exact hd d (by rw [hoz]; simp)

theorem oz_floz_rev (oz : String) :
    ∃ zs, ((oz ++ " fl oz").toList).reverse = 'z' :: zs := by
  rw [toList_append, List.reverse_append]
  rw [show (" fl oz".toList).reverse = 'z' :: "o lf ".toList from rfl]
  exact ⟨"o lf ".toList ++ oz.toList.reverse, by rw [List.cons_append]⟩

theorem oz_suffix_of_core (pre oz suf : String) :
    ∃ u, (pre ++ oz ++ suf).toList = u ++ (oz ++ suf).toList := by
  refine ⟨pre.toList, ?_⟩
  rw [toList_append, toList_append, toList_append, List.append_assoc]

/-- Positive containment of `oz ++ " fl oz"` in the three drink-query
shapes. -/
theorem oz_hasSub_all (brand : Option String) (pre oz : String)
    (hne : oz.toList ≠ []) (hd : oz.toList.all Char.isDigit = true) :
    hasSub (oz ++ " fl oz") (with_brand brand (pre ++ oz ++ " fl oz")) = true ∧
    hasSub (oz ++ " fl oz")
      (pyStrip (with_brand brand (pre ++ oz ++ " fl oz"))) = true ∧
    hasSub (oz ++ " fl oz")
      (with_brand brand (pyStrip (pre ++ oz ++ " fl oz"))) = true := by
  obtain ⟨c, p', hp, hc⟩ := oz_suf_head hne hd " fl oz"
  obtain ⟨zs, hz⟩ := oz_floz_rev oz
  have hzs : pySpace 'z' = false := by decide
  have hsuf := oz_suffix_of_core pre oz " fl oz"
  obtain ⟨w1, w2⟩ := withBrand_suffix hp hc hz hzs brand (pre ++ oz ++ " fl oz") hsuf
  refine ⟨w1, w2, ?_⟩
  have hsuf2 : ∃ u, (pyStrip (pre ++ oz ++ " fl oz")).toList =
      u ++ (oz ++ " fl oz").toList := by
    rw [toList_pyStrip]
    exact suffix_stripChars hp hc hz hzs hsuf
  exact (withBrand_suffix hp hc hz hzs brand (pyStrip (pre ++ oz ++ " fl oz"))
    hsuf2).1

/-- A single concrete word is contained in its own branded query, stripped or
not. -/
theorem word_hasSub_withBrand (brand : Option String) (w : String)
    (hw : headNonspace w = true) (hw2 : lastNonspace w = true) :
    hasSub w (with_brand brand w) = true ∧
    hasSub w (pyStrip (with_brand brand w)) = true := by
  rcases hp : w.toList with _ | ⟨c, p'⟩
  · simp only [headNonspace, hp] at hw
    exact absurd hw (by decide)
  · rcases hz : w.toList.reverse with _ | ⟨z, zs⟩
    · simp only [lastNonspace, hz] at hw2
      exact absurd hw2 (by decide)
    · have hc : pySpace c = false := by
        simp only [headNonspace, hp] at hw
        cases hps : pySpace c
        · rfl
        · rw [hps] at hw
          exact absurd hw (by decide)
      have hzs : pySpace z = false := by
        simp only [lastNonspace, hz] at hw2
        cases hps : pySpace z
        · rfl
        · rw [hps] at hw2
          exact absurd hw2 (by decide)
      exact withBrand_suffix hp hc hz hzs brand w ⟨[], by simp⟩

/-- A concrete size word is contained in the size-word drink queries, whether
the strip is applied inside or outside `with_brand`. -/
theorem hasSub_withBrand_strip_word (brand : Option String) (w d : String)
    (hw : headNonspace w = true) (hw2 : lastNonspace w = true)
    (hst : pyStrip w = w) :
    hasSub w (with_brand brand (pyStrip (pyOrS (some w) d))) = true ∧
    hasSub w (pyStrip (with_brand brand (pyOrS (some w) d))) = true := by
  have hne : w ≠ "" := by
    intro he
    rw [he] at hw
    exact absurd hw (by decide)
  have htr : truthyS (some w) = true := by
    simp [truthyS, hne]
  have hpy : pyOrS (some w) d = w := by
    rw [pyOrS, if_pos htr]
    rfl
  constructor
  · rw [hpy, hst]
    exact (word_hasSub_withBrand brand w hw hw2).1
  · rw [hpy]
    exact (word_hasSub_withBrand brand w hw hw2).2

theorem build_expected_ounces_digits {entry : Entry} {oz : String}
    (h : (build_expected entry).ounces = some oz) :
    oz.toList ≠ [] ∧ oz.toList.all Char.isDigit = true := by
  have h2 : ouncesScan (lowerStr
      (((some (pyStrip (pyOrS entry.item_name ""))).getD "") ++ " " ++
       ((some (pyStrip (pyOrS entry.description "") ++ " " ++
         pyStrip (pyOrS entry.portion_detail ""))).getD ""))).toList = some oz := by
    rw [← parse_expected_ounces]
    exact h
  exact ouncesScan_digits h2

theorem size_word_cases {sz : Option String}
    (h4 : sz ∈ ([none, some "XS", some "S", some "M", some "L", some "XL",
      some "UNKNOWN"] : List (Option String))) :
    title_size_from_enum sz = none ∨ title_size_from_enum sz = some "XS" ∨
    title_size_from_enum sz = some "Small" ∨
    title_size_from_enum sz = some "Medium" ∨
    title_size_from_enum sz = some "Large" ∨
    title_size_from_enum sz = some "XL" := by
  simp only [List.mem_cons, List.not_mem_nil, or_false] at h4
  rcases h4 with rfl | rfl | rfl | rfl | rfl | rfl | rfl <;> decide

theorem c8aux_nosoft (brand : Option String) (entry : Entry)
    (h1 : hasSub "nugget" (build_text entry) = false)
    (h2 : (hasSub "fries" (build_text entry) ||
      hasSub "french fries" (build_text entry)) = false)
    (h3 : drink_cond (build_text entry) = true)
    (h4 : entry.size ∈ ([none, some "XS", some "S", some "M", some "L",
      some "XL", some "UNKNOWN"] : List (Option String)))
    (h5 : hasSub "soft drink" (pyOrS brand "" ++ " ") = false) :
    hasSub "soft drink" (build_nutritionix_query_for_item brand entry) = false := by
  have hsd_rev : ("soft drink".toList).reverse = 'k' :: "nird tfos".toList := rfl
  have hsw := size_word_cases h4
  rw [build_query_drink_branch brand entry h1 h2 h3]
  by_cases hcof : coffee_cue (build_text entry) = true
  · rw [if_pos hcof]
    rcases hoz : (build_expected entry).ounces with _ | oz
    · exact (withBrand_nosub hsd_rev brand "Iced Coffee" h5 (by decide)).2
    · obtain ⟨hne, hd⟩ := build_expected_ounces_digits hoz
      exact (withBrand_nosub hsd_rev brand ("Iced Coffee " ++ oz ++ " fl oz") h5
        (no_char_parts (by decide) hd (by decide) (by decide))).2
  · rw [if_neg hcof]
    by_cases hspr : hasSub "sprite" (build_text entry) = true
    · rw [if_pos hspr]
      rcases hoz : (build_expected entry).ounces with _ | oz
      · refine (withBrand_nosub hsd_rev brand _ h5 ?_).1
        intro hk
        have hk2 := mem_stripChars hk
        rcases hsw with h | h | h | h | h | h <;> rw [h] at hk2 <;>
          revert hk2 <;> decide
      · obtain ⟨hne, hd⟩ := build_expected_ounces_digits hoz
        refine (withBrand_nosub hsd_rev brand _ h5 ?_).1
        intro hk
        exact no_char_parts (by decide) hd (by decide) (by decide)
          (mem_stripChars hk)
    · rw [if_neg hspr]
      by_cases hcola : (["coca-cola", "coke", "cola"].any
          fun k => hasSub k (build_text entry)) = true
      · rw [if_pos hcola]
        rcases hoz : (build_expected entry).ounces with _ | oz
        · refine (withBrand_nosub hsd_rev brand _ h5 ?_).1
          intro hk
          have hk2 := mem_stripChars hk
          rcases hsw with h | h | h | h | h | h <;> rw [h] at hk2 <;>
            revert hk2 <;> decide
        · obtain ⟨hne, hd⟩ := build_expected_ounces_digits hoz
          refine (withBrand_nosub hsd_rev brand _ h5 ?_).1
          intro hk
          exact no_char_parts (by decide) hd (by decide) (by decide)
            (mem_stripChars hk)
      · rw [if_neg hcola]
        rcases hoz : (build_expected entry).ounces with _ | oz
        · refine (withBrand_nosub hsd_rev brand _ h5 ?_).2
          intro hk
          rcases hsw with h | h | h | h | h | h <;> rw [h] at hk <;>
            revert hk <;> decide
        · obtain ⟨hne, hd⟩ := build_expected_ounces_digits hoz
          exact (withBrand_nosub hsd_rev brand ("Coca-Cola " ++ oz ++ " fl oz")
            h5 (no_char_parts (by decide) hd (by decide) (by decide))).2

theorem c8aux_oz (brand : Option String) (entry : Entry)
    (h1 : hasSub "nugget" (build_text entry) = false)
    (h2 : (hasSub "fries" (build_text entry) ||
      hasSub "french fries" (build_text entry)) = false)
    (h3 : drink_cond (build_text entry) = true) :
    ∀ oz, (build_expected entry).ounces = some oz →
      hasSub (oz ++ " fl oz") (build_nutritionix_query_for_item brand entry) =
        true := by
  intro oz hoz
  obtain ⟨hne, hd⟩ := build_expected_ounces_digits hoz
  rw [build_query_drink_branch brand entry h1 h2 h3, hoz]
  by_cases hcof : coffee_cue (build_text entry) = true
  · rw [if_pos hcof]
    exact (oz_hasSub_all brand "Iced Coffee " oz hne hd).2.1
  · rw [if_neg hcof]
    by_cases hspr : hasSub "sprite" (build_text entry) = true
    · rw [if_pos hspr]
      exact (oz_hasSub_all brand "Sprite " oz hne hd).2.2
    · rw [if_neg hspr]
      by_cases hcola : (["coca-cola", "coke", "cola"].any
          fun k => hasSub k (build_text entry)) = true
      · rw [if_pos hcola]
        exact (oz_hasSub_all brand "Coca-Cola " oz hne hd).2.2
      · rw [if_neg hcola]
        exact (oz_hasSub_all brand "Coca-Cola " oz hne hd).2.1

set_option maxHeartbeats 1000000 in
theorem c8aux_size (brand : Option String) (entry : Entry)
    (h1 : hasSub "nugget" (build_text entry) = false)
    (h2 : (hasSub "fries" (build_text entry) ||
      hasSub "french fries" (build_text entry)) = false)
    (h3 : drink_cond (build_text entry) = true)
    (h4 : entry.size ∈ ([none, some "XS", some "S", some "M", some "L",
      some "XL", some "UNKNOWN"] : List (Option String))) :
    (build_expected entry).ounces = none →
    coffee_cue (build_text entry) = false →
    ∀ w, title_size_from_enum entry.size = some w →
      hasSub w (build_nutritionix_query_for_item brand entry) = true := by
  intro hoz hcof w hw
  rw [build_query_drink_branch brand entry h1 h2 h3, hoz,
    if_neg (by rw [hcof]; simp)]
  dsimp only
  have hws := size_word_cases h4
  rcases hws with h | h | h | h | h | h
  · rw [h] at hw
    exact absurd hw (by simp)
  all_goals (
    rw [h] at hw
    injection hw with hw2
    subst hw2
    by_cases hspr : hasSub "sprite" (build_text entry) = true
    · rw [if_pos hspr]
      rw [h]
      exact (hasSub_withBrand_strip_word brand _ _ (by decide) (by decide)
        (by decide)).1
    · rw [if_neg hspr]
      by_cases hcola : (["coca-cola", "coke", "cola"].any
          fun k => hasSub k (build_text entry)) = true
      · rw [if_pos hcola]
        rw [h]
        exact (hasSub_withBrand_strip_word brand _ _ (by decide) (by decide)
          (by decide)).1
      · rw [if_neg hcola]
        rw [h]
        exact (hasSub_withBrand_strip_word brand _ _ (by decide) (by decide)
          (by decide)).2)

theorem c8aux_iced (brand : Option String) (entry : Entry)
    (h1 : hasSub "nugget" (build_text entry) = false)
    (h2 : (hasSub "fries" (build_text entry) ||
      hasSub "french fries" (build_text entry)) = false)
    (h3 : drink_cond (build_text entry) = true)
    (h4 : entry.size ∈ ([none, some "XS", some "S", some "M", some "L",
      some "XL", some "UNKNOWN"] : List (Option String))) :
    coffee_cue (build_text entry) = false →
    ∃ core, build_nutritionix_query_for_item brand entry =
      pyStrip (with_brand brand core) ∧ hasSub "Iced Coffee" core = false := by
  intro hcof
  have hsw := size_word_cases h4
  rw [build_query_drink_branch brand entry h1 h2 h3,
    if_neg (by rw [hcof]; simp)]
  by_cases hspr : hasSub "sprite" (build_text entry) = true
  · rw [if_pos hspr]
    rcases hoz : (build_expected entry).ounces with _ | oz
    · refine ⟨pyStrip (pyOrS (title_size_from_enum entry.size) ""),
        (pyStrip_withBrand_strip brand _).symm, ?_⟩
      apply no_icedcoffee_of_no_I
      intro hI
      have hI2 := mem_stripChars hI
      rcases hsw with h | h | h | h | h | h <;> rw [h] at hI2 <;>
        revert hI2 <;> decide
    · obtain ⟨hne, hd⟩ := build_expected_ounces_digits hoz
      refine ⟨pyStrip ("Sprite " ++ oz ++ " fl oz"),
        (pyStrip_withBrand_strip brand _).symm, ?_⟩
      apply no_icedcoffee_of_no_I
      intro hI
      exact no_char_parts (by decide) hd (by decide) (by decide)
        (mem_stripChars hI)
  · rw [if_neg hspr]
    by_cases hcola : (["coca-cola", "coke", "cola"].any
        fun k => hasSub k (build_text entry)) = true
    · rw [if_pos hcola]
      rcases hoz : (build_expected entry).ounces with _ | oz
      · refine ⟨pyStrip (pyOrS (title_size_from_enum entry.size) ""),
          (pyStrip_withBrand_strip brand _).symm, ?_⟩
        apply no_icedcoffee_of_no_I
        intro hI
        have hI2 := mem_stripChars hI
        rcases hsw with h | h | h | h | h | h <;> rw [h] at hI2 <;>
          revert hI2 <;> decide
      · obtain ⟨hne, hd⟩ := build_expected_ounces_digits hoz
        refine ⟨pyStrip ("Coca-Cola " ++ oz ++ " fl oz"),
          (pyStrip_withBrand_strip brand _).symm, ?_⟩
        apply no_icedcoffee_of_no_I
        intro hI
        exact no_char_parts (by decide) hd (by decide) (by decide)
          (mem_stripChars hI)
    · rw [if_neg hcola]
      rcases hoz : (build_expected entry).ounces with _ | oz
      · refine ⟨pyOrS (title_size_from_enum entry.size) "Medium", rfl, ?_⟩
        apply no_icedcoffee_of_no_I
        intro hI
        rcases hsw with h | h | h | h | h | h <;> rw [h] at hI <;>
          revert hI <;> decide
      · obtain ⟨hne, hd⟩ := build_expected_ounces_digits hoz
        refine ⟨"Coca-Cola " ++ oz ++ " fl oz", rfl, ?_⟩
        apply no_icedcoffee_of_no_I
        exact no_char_parts (by decide) hd (by decide) (by decide)

/-- C8 (amended): for every item reaching the drink branch of the query
builder (with an enum-valued `size` field and a brand whose rendered prefix
does not itself contain "soft drink"):
the composed query never contains the generic "soft drink" name;
it embeds the ounces (as `<oz> fl oz`) whenever ounces are known;
when ounces are unknown and there are no explicit coffee cues it embeds the
known size word;
and without explicit coffee cues the composed core name never contains
"Iced Coffee" — the coffee branch with known ounces, however, embeds the
ounces but never the size word (see the counterexample). -/
theorem c8_drink_query_amended (brand : Option String) (entry : Entry)
    (h1 : hasSub "nugget" (build_text entry) = false)
    (h2 : (hasSub "fries" (build_text entry) ||
      hasSub "french fries" (build_text entry)) = false)
    (h3 : drink_cond (build_text entry) = true)
    (h4 : entry.size ∈ ([none, some "XS", some "S", some "M", some "L",
      some "XL", some "UNKNOWN"] : List (Option String)))
    (h5 : hasSub "soft drink" (pyOrS brand "" ++ " ") = false) :
    hasSub "soft drink" (build_nutritionix_query_for_item brand entry) =
      false ∧
    (∀ oz, (build_expected entry).ounces = some oz →
      hasSub (oz ++ " fl oz") (build_nutritionix_query_for_item brand entry) =
        true) ∧
    ((build_expected entry).ounces = none →
      coffee_cue (build_text entry) = false →
      ∀ w, title_size_from_enum entry.size = some w →
        hasSub w (build_nutritionix_query_for_item brand entry) = true) ∧
    (coffee_cue (build_text entry) = false →
      ∃ core, build_nutritionix_query_for_item brand entry =
        pyStrip (with_brand brand core) ∧
        hasSub "Iced Coffee" core = false) :=
  ⟨c8aux_nosoft brand entry h1 h2 h3 h4 h5,
   c8aux_oz brand entry h1 h2 h3,
   c8aux_size brand entry h1 h2 h3 h4,
   c8aux_iced brand entry h1 h2 h3 h4⟩

/-- C8 counterexample: a drink-classified item ("Iced Coffee Drink", size L)
with explicit coffee cues, no ounces and a known size word "Large": the
composed query is "McDonalds Iced Coffee", which does not embed the size
word — refuting "it embeds the ounces when known and otherwise the size
word" as stated for every drink-classified item. -/
theorem c8_drink_query_counterexample :
    hasSub "nugget" (build_text entryIcedCoffee) = false ∧
    (hasSub "fries" (build_text entryIcedCoffee) ||
      hasSub "french fries" (build_text entryIcedCoffee)) = false ∧
    drink_cond (build_text entryIcedCoffee) = true ∧
    (build_expected entryIcedCoffee).ounces = none ∧
    title_size_from_enum entryIcedCoffee.size = some "Large" ∧
    build_nutritionix_query_for_item (some "McDonalds") entryIcedCoffee =
      "McDonalds Iced Coffee" ∧
    hasSub "Large" (build_nutritionix_query_for_item (some "McDonalds")
      entryIcedCoffee) = false := by
  decide

/-- C8 witness: the drink item "Coke" (size M, no ounces, no coffee cues)
yields a query that avoids "soft drink" and embeds the size word. -/
theorem c8_drink_query_witness :
    hasSub "soft drink" (build_nutritionix_query_for_item (some "McDonalds")
      entryCoke) = false ∧
    hasSub "Medium" (build_nutritionix_query_for_item (some "McDonalds")
      entryCoke) = true :=
  ⟨(c8_drink_query_amended (some "McDonalds") entryCoke (by decide) (by decide)
      (by decide) (by decide) (by decide)).1,
   (c8_drink_query_amended (some "McDonalds") entryCoke (by decide) (by decide)
      (by decide) (by decide) (by decide)).2.2.1 (by decide) (by decide)
     "Medium" (by decide)⟩
